import Mathlib

/-!
Verification of the offline-first sync engine of `besiktningsapp`
(backend/app/services/sync_service.py, backend/app/models/change_log.py,
backend/app/services/conflict_resolver.py, backend/app/models/sync_log.py).

The Python code is shallowly embedded: dictionaries become association
lists over a value type `Val`, SQLAlchemy sessions become an explicit
pair of a committed and a pending database state, exceptions become
`Except PyExc`, and `datetime` values become natural-number instants.
Numeric payload values are modelled as integers (no claim concerns
floating point).  `app/models/base.py` (class `BaseModel`) is not part
of the available sources; its contract (`id`, `client_id`, `revision`
starting at 1, `deleted_at`, `updated_at`, `to_dict` snapshot) is
modelled from the specification where noted.
-/

namespace Besikt

/-- Python runtime values as they appear in sync payloads and entity
attributes: `None`, strings, integers, `datetime` instants, `date`
values, the three domain enums, lists and nested dicts. -/
inductive Val where
  | vnull
  | vstr (s : String)
  | vint (n : Int)
  | vdt (t : Nat)
  | vdate (s : String)
  | vstatus (s : String)
  | vsev (s : String)
  | vmtype (s : String)
  | vlist (xs : List Val)
  | vdict (xs : List (String × Val))

/-- Python exceptions relevant to the sync code paths. -/
inductive PyExc where
  | valueError (msg : String)
  | keyError (msg : String)
  | typeError (msg : String)
  | attributeError (msg : String)
deriving DecidableEq

/-- Association-list dictionary with string keys, the embedding of a
Python `dict`. -/
abbrev Dict := List (String × Val)

/-- Association-list update, generic over the stored type: replace the
first binding of `k` or append a fresh one. -/
def assocSet {β : Type} (d : List (String × β)) (k : String) (v : β) : List (String × β) :=
  match d with
  | [] => [(k, v)]
  | (k', v') :: rest => if k' = k then (k, v) :: rest else (k', v') :: assocSet rest k v

/-- Embedding of Python `d[k] = v` / `setattr(obj, k, v)`. -/
def dictSet (d : Dict) (k : String) (v : Val) : Dict :=
  assocSet d k v

/-- Embedding of Python `d.get(k)`: `none` when the key is absent. -/
def dictGet (d : Dict) (k : String) : Option Val :=
  List.lookup k d

/-- Embedding of attribute read on an entity object; attributes of the
entities handled here are always initialised by their constructors. -/
def getattr (d : Dict) (k : String) : Val :=
  (dictGet d k).getD Val.vnull

/-- Python truthiness of an embedded value (`if value:`). -/
def valTruthy : Val → Bool
  | Val.vnull => false
  | Val.vstr s => s ≠ ""
  | Val.vint n => n ≠ 0
  | Val.vdt _ => true
  | Val.vdate _ => true
  | Val.vstatus _ => true
  | Val.vsev _ => true
  | Val.vmtype _ => true
  | Val.vlist xs => !xs.isEmpty
  | Val.vdict xs => !xs.isEmpty

/-! ### Decimal rendering and Python `int()` parsing -/

/-- Decimal digit character for `d < 10`. -/
def digitChar (d : Nat) : Char := Char.ofNat (48 + d)

/-- Decimal digits of a natural number, most significant first (the
rendering used by Python `f"{n:d}"` for non-negative `n`). -/
def natDigits (n : Nat) : List Char :=
  if n < 10 then [digitChar n] else natDigits (n / 10) ++ [digitChar (n % 10)]
decreasing_by
  exact Nat.div_lt_self (by omega) (by omega)

/-- Characters `'0'`–`'9'`. -/
def isDigitChar (c : Char) : Bool := 48 ≤ c.toNat && c.toNat ≤ 57

/-- Whitespace stripped by Python `int(str)`. -/
def pySpace (c : Char) : Bool :=
  c = ' ' || c = '\t' || c = '\n' || c = '\r' || c = Char.ofNat 11 || c = Char.ofNat 12

/-- Digit-group tail after a digit: further digits, with single
underscores allowed only between digits (PEP 515, as accepted by
Python `int`). -/
def digitsTail : List Char → Bool
  | [] => true
  | c :: cs =>
    if c = '_' then
      match cs with
      | [] => false
      | d :: ds => isDigitChar d && digitsTail ds
    else
      isDigitChar c && digitsTail cs

/-- Valid unsigned digit string for Python `int`. -/
def digitsOk : List Char → Bool
  | [] => false
  | c :: cs => isDigitChar c && digitsTail cs

/-- Numeric value of a digit string (underscores already removed). -/
def digitsVal (cs : List Char) : Nat :=
  cs.foldl (fun acc c => acc * 10 + (c.toNat - 48)) 0

/-- Unsigned part of Python `int(str)` on a character list. -/
def parsePyUInt (cs : List Char) : Option Nat :=
  if digitsOk cs then some (digitsVal (cs.filter (fun c => c ≠ '_'))) else none

/-- Strip the surrounding whitespace Python `int(str)` ignores. -/
def stripWs (s : List Char) : List Char :=
  ((s.dropWhile pySpace).reverse.dropWhile pySpace).reverse

/-- Embedding of Python `int(s)` for a character list: strip surrounding
whitespace, optional sign, digit group; `none` models `ValueError`. -/
def parsePyInt (s : List Char) : Option Int :=
  match stripWs s with
  | [] => none
  | c :: rest =>
    if c = '+' then (parsePyUInt rest).map (fun n => (n : Int))
    else if c = '-' then (parsePyUInt rest).map (fun n => -(n : Int))
    else (parsePyUInt (c :: rest)).map (fun n => (n : Int))

/-! ### ChangeLog cursor helpers (`app/models/change_log.py`) -/

/-- Zero-pad a digit list on the left to width 12, the embedding of
Python `f"{change_id:012d}"` for non-negative ids. -/
def zeroPad12 (cs : List Char) : List Char :=
  List.replicate (12 - cs.length) '0' ++ cs

/-- `ChangeLog.cursor_from_id`: encode a numeric id as the wire cursor
string `"chg_" + zero-padded(id, 12)`. -/
def cursor_from_id (change_id : Nat) : String :=
  String.mk ('c' :: 'h' :: 'g' :: '_' :: zeroPad12 (natDigits change_id))

/-- Branch body of `ChangeLog.id_from_cursor`: `cursor.startswith("chg_")`
and the `cursor[4:]` slicing are embedded as a match on the leading
four characters; `none` models the caught `ValueError`. -/
def cursorParse (cs : List Char) : Option Int :=
  match cs with
  | 'c' :: 'h' :: 'g' :: '_' :: rest => parsePyInt rest
  | other => parsePyInt other

/-- `ChangeLog.id_from_cursor`: decode a wire cursor; absent, empty or
unparseable input decodes to 0, never an error. -/
def id_from_cursor (cursor : Option String) : Int :=
  match cursor with
  | none => 0
  | some s => if s.toList = [] then 0 else (cursorParse s.toList).getD 0

/-! ### Conflict resolver (`app/services/conflict_resolver.py`) -/

/-- Lexicographic code-point order on character lists, the order Python
uses to compare strings. -/
def charListLt : List Char → List Char → Bool
  | [], [] => false
  | [], _ :: _ => true
  | _ :: _, [] => false
  | a :: as, b :: bs =>
    if a.toNat < b.toNat then true
    else if b.toNat < a.toNat then false
    else charListLt as bs

/-- Python `>` on the like-typed values the conflict resolver compares
(ISO timestamp strings lexicographically, `datetime` values by instant,
integers numerically).  Heterogeneous comparisons raise `TypeError` in
Python and are outside every claim's scope. -/
def pyGt : Val → Val → Bool
  | Val.vstr a, Val.vstr b => charListLt b.toList a.toList
  | Val.vint a, Val.vint b => a > b
  | Val.vdt a, Val.vdt b => a > b
  | _, _ => false

/-- Truthiness of an optional dict value (`d.get(k)` then `if v:`). -/
def optTruthy : Option Val → Bool
  | none => false
  | some v => valTruthy v

/-- Result dict of `ConflictResolver.resolve_conflict`: either
`{"resolved": True, "winner": w, "state": s}` or the manual-resolution
conflict dict `{"resolved": False, "conflict": {...}}`. -/
inductive Resolution where
  | auto (winner : String) (state : Dict)
  | manual (server_state : Dict) (client_changes : Dict)

/-- `ConflictResolver._last_write_wins`: compare `updated_at`; newer
client wins, otherwise (ties, missing or falsy timestamps) server. -/
def lastWriteWins (server_state client_changes : Dict) : Resolution :=
  let server_time := dictGet server_state "updated_at"
  let client_time := dictGet client_changes "updated_at"
  if optTruthy client_time && optTruthy server_time then
    if pyGt (client_time.getD Val.vnull) (server_time.getD Val.vnull) then
      Resolution.auto "client" client_changes
    else
      Resolution.auto "server" server_state
  else
    Resolution.auto "server" server_state

/-- `ConflictResolver._manual_resolution`. -/
def manualResolution (server_state client_changes : Dict) : Resolution :=
  Resolution.manual server_state client_changes

/-- `ConflictResolver.resolve_conflict`: dispatch on the strategy name;
unknown strategies fall back to last-write-wins. -/
def resolve_conflict (server_state client_changes : Dict) (strategy : String) : Resolution :=
  if strategy = "LWW" then lastWriteWins server_state client_changes
  else if strategy = "manual" then manualResolution server_state client_changes
  else lastWriteWins server_state client_changes

/-- A cursor string that parses neither as a `"chg_"`-prefixed integer
nor as a bare integer. -/
def notParseableCursor (s : String) : Prop :=
  cursorParse s.toList = none

/-! ### Facts about decimal rendering and parsing -/

theorem digitChar_toNat {d : Nat} (h : d < 10) : (digitChar d).toNat = 48 + d := by
  interval_cases d <;> decide

theorem isDigitChar_digitChar {d : Nat} (h : d < 10) : isDigitChar (digitChar d) = true := by
  interval_cases d <;> decide

theorem natDigits_eq_of_lt {n : Nat} (h : n < 10) : natDigits n = [digitChar n] := by
  rw [natDigits]
  simp [h]

theorem natDigits_eq_of_ge {n : Nat} (h : ¬ n < 10) :
    natDigits n = natDigits (n / 10) ++ [digitChar (n % 10)] := by
  rw [natDigits]
  simp [h]

theorem natDigits_ne_nil (n : Nat) : natDigits n ≠ [] := by
  by_cases h : n < 10
  · rw [natDigits_eq_of_lt h]; simp
  · rw [natDigits_eq_of_ge h]; simp

theorem natDigits_all_digit (n : Nat) : ∀ c ∈ natDigits n, isDigitChar c = true := by
  induction n using Nat.strong_induction_on with
  | _ n ih =>
    by_cases h : n < 10
    · rw [natDigits_eq_of_lt h]
      intro c hc
      rw [List.mem_singleton] at hc
      subst hc
      exact isDigitChar_digitChar h
    · rw [natDigits_eq_of_ge h]
      intro c hc
      rw [List.mem_append] at hc
      rcases hc with hc | hc
      · exact ih (n / 10) (Nat.div_lt_self (by omega) (by omega)) c hc
      · rw [List.mem_singleton] at hc
        subst hc
        exact isDigitChar_digitChar (Nat.mod_lt _ (by omega))

theorem digit_not_special {c : Char} (h : isDigitChar c = true) :
    c ≠ '+' ∧ c ≠ '-' ∧ c ≠ '_' ∧ pySpace c = false := by
  have h' : 48 ≤ c.toNat ∧ c.toNat ≤ 57 := by
    simpa [isDigitChar, Bool.and_eq_true, decide_eq_true_eq] using h
  refine ⟨?_, ?_, ?_, ?_⟩
  · intro e; subst e; exact absurd h' (by decide)
  · intro e; subst e; exact absurd h' (by decide)
  · intro e; subst e; exact absurd h' (by decide)
  · by_contra hb
    have hb' : pySpace c = true := by simpa using hb
    simp only [pySpace, Bool.or_eq_true, decide_eq_true_eq] at hb'
    rcases hb' with ((((e | e) | e) | e) | e) | e <;>
      (subst e; exact absurd h' (by decide))

theorem digitsTail_of_all (cs : List Char) (h : ∀ c ∈ cs, isDigitChar c = true) :
    digitsTail cs = true := by
  induction cs with
  | nil => rfl
  | cons c cs ih =>
    have hc := h c (by simp)
    have hne : c ≠ '_' := (digit_not_special hc).2.2.1
    rw [digitsTail.eq_def]
    simp [hne, hc, ih (fun x hx => h x (List.mem_cons_of_mem _ hx))]

theorem digitsOk_of_all {l : List Char} (hne : l ≠ []) (h : ∀ c ∈ l, isDigitChar c = true) :
    digitsOk l = true := by
  cases l with
  | nil => exact absurd rfl hne
  | cons c cs =>
    rw [digitsOk]
    simp [h c (by simp), digitsTail_of_all cs (fun x hx => h x (List.mem_cons_of_mem _ hx))]

theorem dropWhile_eq_self_of_all {p : Char → Bool} {l : List Char}
    (h : ∀ c ∈ l, p c = false) : l.dropWhile p = l := by
  cases l with
  | nil => rfl
  | cons c cs =>
    rw [List.dropWhile_cons]
    simp [h c (by simp)]

theorem stripWs_eq_self {l : List Char} (h : ∀ c ∈ l, pySpace c = false) :
    stripWs l = l := by
  unfold stripWs
  rw [dropWhile_eq_self_of_all h,
    dropWhile_eq_self_of_all (fun c hc => h c (List.mem_reverse.mp hc)),
    List.reverse_reverse]

theorem parsePyUInt_of_digits {l : List Char} (hne : l ≠ [])
    (h : ∀ c ∈ l, isDigitChar c = true) : parsePyUInt l = some (digitsVal l) := by
  unfold parsePyUInt
  rw [digitsOk_of_all hne h]
  simp only [if_true]
  congr 1
  exact congrArg digitsVal
    (List.filter_eq_self.mpr (fun c hc => by
      simpa using (digit_not_special (h c hc)).2.2.1))

theorem parsePyInt_of_digits {l : List Char} (hne : l ≠ [])
    (h : ∀ c ∈ l, isDigitChar c = true) :
    parsePyInt l = some ((digitsVal l : Nat) : Int) := by
  cases l with
  | nil => exact absurd rfl hne
  | cons c cs =>
    have hc := h c (by simp)
    have hspec := digit_not_special hc
    unfold parsePyInt
    rw [stripWs_eq_self (fun x hx => (digit_not_special (h x hx)).2.2.2)]
    simp only [hspec.1, hspec.2.1, if_false]
    rw [parsePyUInt_of_digits (by simp) h]
    rfl

theorem digitsVal_append_singleton (xs : List Char) (c : Char) :
    digitsVal (xs ++ [c]) = digitsVal xs * 10 + (c.toNat - 48) := by
  simp [digitsVal, List.foldl_append]

theorem foldl_digits_zeros (k : Nat) :
    List.foldl (fun acc c => acc * 10 + (c.toNat - 48)) 0 (List.replicate k '0') = 0 := by
  induction k with
  | zero => rfl
  | succ k ih =>
    rw [List.replicate_succ, List.foldl_cons]
    have hz : (0 * 10 + ('0'.toNat - 48)) = 0 := by decide
    rw [hz]
    exact ih

theorem digitsVal_replicate_zero_append (k : Nat) (ds : List Char) :
    digitsVal (List.replicate k '0' ++ ds) = digitsVal ds := by
  unfold digitsVal
  rw [List.foldl_append, foldl_digits_zeros]

theorem digitsVal_natDigits (n : Nat) : digitsVal (natDigits n) = n := by
  induction n using Nat.strong_induction_on with
  | _ n ih =>
    by_cases h : n < 10
    · rw [natDigits_eq_of_lt h]
      show 0 * 10 + ((digitChar n).toNat - 48) = n
      rw [digitChar_toNat h]
      omega
    · rw [natDigits_eq_of_ge h, digitsVal_append_singleton,
        ih (n / 10) (Nat.div_lt_self (by omega) (by omega)),
        digitChar_toNat (Nat.mod_lt _ (by omega))]
      omega

theorem zeroPad12_all_digit (n : Nat) :
    ∀ c ∈ zeroPad12 (natDigits n), isDigitChar c = true := by
  intro c hc
  rw [zeroPad12, List.mem_append] at hc
  rcases hc with hc | hc
  · rw [List.eq_of_mem_replicate hc]; decide
  · exact natDigits_all_digit n c hc

theorem zeroPad12_ne_nil (n : Nat) : zeroPad12 (natDigits n) ≠ [] := by
  rw [zeroPad12]
  intro e
  rcases List.append_eq_nil.mp e with ⟨_, h2⟩
  exact natDigits_ne_nil n h2

theorem digitsVal_zeroPad12 (n : Nat) : digitsVal (zeroPad12 (natDigits n)) = n := by
  rw [zeroPad12, digitsVal_replicate_zero_append, digitsVal_natDigits]

theorem id_from_cursor_some (s : String) :
    id_from_cursor (some s) = if s.toList = [] then 0 else (cursorParse s.toList).getD 0 :=
  rfl

/-- C3: for every natural `n`, decoding the cursor encoding of `n`
returns `n`; and a cursor that is absent, empty, or parseable neither
as a `"chg_"`-prefixed integer nor as a bare integer decodes to `0`
(the decoder is a total function, so no error is ever raised). -/
theorem C3_cursor_codec :
    (∀ n : Nat, id_from_cursor (some (cursor_from_id n)) = (n : Int)) ∧
    id_from_cursor none = 0 ∧
    id_from_cursor (some "") = 0 ∧
    (∀ s : String, notParseableCursor s → id_from_cursor (some s) = 0) := by
  refine ⟨?_, rfl, rfl, ?_⟩
  · intro n
    rw [id_from_cursor_some, if_neg (by simp [cursor_from_id, String.toList])]
    show (cursorParse ('c' :: 'h' :: 'g' :: '_' :: zeroPad12 (natDigits n))).getD 0 = (n : Int)
    show (parsePyInt (zeroPad12 (natDigits n))).getD 0 = (n : Int)
    rw [parsePyInt_of_digits (zeroPad12_ne_nil n) (zeroPad12_all_digit n),
      digitsVal_zeroPad12]
    rfl
  · intro s hs
    rw [notParseableCursor] at hs
    rw [id_from_cursor_some]
    by_cases he : s.toList = []
    · rw [if_pos he]
    · rw [if_neg he, hs]
      rfl

/-! ### UUID and date parsing used by the sync service -/

/-- Hexadecimal digit characters. -/
def isHexChar (c : Char) : Bool :=
  isDigitChar c || ('a' ≤ c && c ≤ 'f') || ('A' ≤ c && c ≤ 'F')

/-- Brace characters stripped by `uuid.UUID` (`hex.strip('\x7b\x7d')`). -/
def isBrace (c : Char) : Bool := c.toNat = 123 || c.toNat = 125

/-- Whether `pat` is a prefix of the list. -/
def isPrefixList : List Char → List Char → Bool
  | [], _ => true
  | _ :: _, [] => false
  | a :: as, b :: bs => a == b && isPrefixList as bs

/-- Left-to-right scan removing every occurrence of the non-empty
pattern `p :: ps`; a positive `skip` count drops the remaining matched
characters (structural recursion on the scanned list). -/
def removeOccAux (p : Char) (ps : List Char) : Nat → List Char → List Char
  | _, [] => []
  | Nat.succ k, _ :: cs => removeOccAux p ps k cs
  | 0, c :: cs =>
    if isPrefixList (p :: ps) (c :: cs) then
      removeOccAux p ps ps.length cs
    else
      c :: removeOccAux p ps 0 cs

/-- Remove every occurrence of the non-empty pattern `p :: ps`
left-to-right, the embedding of Python `str.replace(pat, "")`. -/
def removeOcc (p : Char) (ps : List Char) (l : List Char) : List Char :=
  removeOccAux p ps 0 l

/-- Embedding of `uuid.UUID(s)`: drop `urn:` and `uuid:` markers, strip
surrounding braces, drop dashes, require 32 hex digits; the canonical
value is the lowercase hex string.  `none` models the `ValueError`. -/
def parseUUID (s : String) : Option String :=
  let cs := removeOcc 'u' ['u', 'i', 'd', ':'] (removeOcc 'u' ['r', 'n', ':'] s.toList)
  let cs := ((cs.dropWhile isBrace).reverse.dropWhile isBrace).reverse
  let cs := cs.filter (fun c => c ≠ '-')
  if cs.length = 32 && cs.all isHexChar then
    some (String.mk (cs.map Char.toLower))
  else
    none

/-- Embedding of `date.fromisoformat` validity for the `YYYY-MM-DD`
layout (exact day-of-month calendar validation beyond `1..31` is
immaterial to every claim). -/
def isIsoDate (s : String) : Bool :=
  match s.toList with
  | [y1, y2, y3, y4, '-', m1, m2, '-', d1, d2] =>
    ([y1, y2, y3, y4, m1, m2, d1, d2].all isDigitChar) &&
    (let mo := (m1.toNat - 48) * 10 + m2.toNat - 48
     let da := (d1.toNat - 48) * 10 + d2.toNat - 48
     1 ≤ mo && mo ≤ 12 && 1 ≤ da && da ≤ 31)
  | _ => false

/-- Decimal string of a natural number. -/
def natRepr (n : Nat) : String := String.mk (natDigits n)

/-- Python `str(value)` for embedded values, as far as the enum-coercion
code paths consult it (object reprs are placeholders: no claim depends
on their exact text, only on their not being an enum-valued string). -/
def pyStr : Val → String
  | Val.vnull => "None"
  | Val.vstr s => s
  | Val.vint n => if n < 0 then "-" ++ natRepr n.natAbs else natRepr n.natAbs
  | Val.vdt t => "datetime<" ++ natRepr t ++ ">"
  | Val.vdate s => s
  | Val.vstatus s => "InspectionStatus." ++ s
  | Val.vsev s => "DefectSeverity." ++ s
  | Val.vmtype s => "MeasurementType." ++ s
  | Val.vlist _ => "<list>"
  | Val.vdict _ => "<dict>"

/-! ### Domain enums (`app/models/inspection.py`, `defect.py`, `measurement.py`) -/

/-- Values of `InspectionStatus`. -/
def inspectionStatuses : List String := ["draft", "final", "archived"]

/-- Values of `MeasurementType`. -/
def measurementTypeValues : List String :=
  ["flode", "tryck", "temp", "co2", "fukt", "ljud", "okand"]

/-- `InspectionStatus(str(value).lower())`: `none` models the
`ValueError` for an unknown status. -/
def tryStatus (v : Val) : Option Val :=
  let s := (pyStr v).toLower
  if inspectionStatuses.contains s then some (Val.vstatus s) else none

/-- `DefectSeverity[str(value).upper()]` (name lookup): `none` models
the `KeyError` for an unknown name. -/
def trySeverity (v : Val) : Option Val :=
  let s := (pyStr v).toUpper
  if s = "LOW" then some (Val.vsev "low")
  else if s = "MEDIUM" then some (Val.vsev "medium")
  else if s = "HIGH" then some (Val.vsev "high")
  else none

/-- `MeasurementType(value)` (value lookup): `none` models the
`ValueError` for anything that is not a member value. -/
def tryMType (v : Val) : Option Val :=
  match v with
  | Val.vstr s => if measurementTypeValues.contains s then some (Val.vmtype s) else none
  | Val.vmtype s => some (Val.vmtype s)
  | _ => none

/-! ### Entities and database state

`app/models/base.py` (class `BaseModel`) is not in the available
sources.  Modelled from the spec: every domain entity carries `id`,
optional `client_id` (unique if present), `revision` starting at 1 and
incremented on every successful mutation, optional `deleted_at`,
`updated_at`, plus its domain fields, and `to_dict` returns a
serializable snapshot of the entity. -/

/-- An ORM entity object, embedded as its attribute dictionary. -/
abbrev Entity := Dict

/-- `BaseModel.to_dict`.  Modelled from the spec: the serializable
snapshot of the entity is its attribute dictionary. -/
def to_dict (e : Entity) : Dict := e

/-- Numeric primary key of an entity. -/
def entityId (e : Entity) : Int :=
  match getattr e "id" with
  | Val.vint n => n
  | _ => 0

/-- Optimistic-concurrency revision of an entity. -/
def entityRevision (e : Entity) : Int :=
  match getattr e "revision" with
  | Val.vint n => n
  | _ => 0

/-- Whether the entity is not soft-deleted (`deleted_at IS NULL`). -/
def entityNotDeleted (e : Entity) : Bool :=
  match getattr e "deleted_at" with
  | Val.vnull => true
  | _ => false

/-- Canonical client-generated UUID of an entity, if any. -/
def entityClientId (e : Entity) : Option String :=
  match getattr e "client_id" with
  | Val.vstr u => some u
  | _ => none

/-- One row of the append-only `change_log` table
(`app/models/change_log.py`). -/
structure ChangeEntry where
  id : Nat
  entity_type : String
  server_id : Int
  action : String
  revision : Int
  payload : Option Dict
  changed_by_user_id : Nat
  created_at : Nat

/-- One `id_map` element of the push response. -/
structure IdMapEntry where
  entity_type : String
  client_id : Option String
  server_id : Int
  revision : Int

/-- The structured conflict payload of a rejected op (`server_state` is
present for update conflicts, absent for delete conflicts). -/
structure ConflictInfo where
  entity_type : String
  server_id : Int
  current_revision : Int
  base_revision : Int
  server_state : Option Dict
  recommended_action : String

/-- One `rejected_ops` element of the push response. -/
structure RejectedOp where
  op_id : String
  reason : String
  conflictInfo : Option ConflictInfo
  detail : Option String

/-- The `/sync/push` response body. -/
structure PushResponse where
  acked_op_ids : List String
  rejected_ops : List RejectedOp
  id_map : List IdMapEntry
  server_cursor : String

/-- One row of the `sync_logs` idempotency table
(`app/models/sync_log.py`); `expires_at` is `processed_at + 24h`. -/
structure SyncRec where
  idempotency_key : String
  device_id : String
  user_id : Nat
  operation_id : String
  entity_type : String
  action : String
  response_body : Option PushResponse
  status_code : Nat
  expires_at : Nat

/-- Database state: the per-type entity tables, the append-only change
log and the idempotency log. -/
structure DB where
  tables : List (String × List Entity)
  changeLog : List ChangeEntry
  syncLogs : List SyncRec

/-- The rows of one entity table. -/
def DB.table (db : DB) (ety : String) : List Entity :=
  (db.tables.lookup ety).getD []

/-- Replace one entity table. -/
def DB.setTable (db : DB) (ety : String) (t : List Entity) : DB :=
  { db with tables := assocSet db.tables ety t }

/-- Current maximal entity id of a table (the auto-increment basis). -/
def maxEntityId (t : List Entity) : Int :=
  t.foldl (fun m e => max m (entityId e)) 0

/-- Current maximal change-log id. -/
def maxChangeId (l : List ChangeEntry) : Nat :=
  l.foldl (fun m c => max m c.id) 0

/-- Python truthiness of an optional integer (`if server_id:`). -/
def optIntTruthy : Option Int → Bool
  | some n => n ≠ 0
  | none => false

/-- Python truthiness of an optional string (`if client_id:`). -/
def optStrTruthy : Option String → Bool
  | some s => s ≠ ""
  | none => false

/-- The row predicate of `SyncService._find_entity`: by `server_id`
(preferred) or by parsed `client_id`, always excluding soft-deleted
rows; `none` when neither identifier is usable. -/
def entityMatch (server_id : Option Int) (client_id : Option String) :
    Option (Entity → Bool) :=
  if optIntTruthy server_id then
    some (fun e => entityId e == server_id.getD 0 && entityNotDeleted e)
  else if optStrTruthy client_id then
    match parseUUID (client_id.getD "") with
    | none => none
    | some u => some (fun e => entityClientId e == some u && entityNotDeleted e)
  else none

/-- `SyncService._find_entity`. -/
def find_entity (db : DB) (ety : String) (server_id : Option Int)
    (client_id : Option String) : Option Entity :=
  match entityMatch server_id client_id with
  | none => none
  | some p => (db.table ety).find? p

/-- In-place ORM mutation: replace the first row matching `p` (the row
`first()` returned) with `e'`. -/
def updateFirst (p : Entity → Bool) (e' : Entity) : List Entity → List Entity
  | [] => []
  | x :: xs => if p x then e' :: xs else x :: updateFirst p e' xs

/-! ### Field allow-lists and `_apply_payload` (`sync_service.py`) -/

/-- The `_UPDATABLE` allow-list table. -/
def updatableTable : List (String × List String) :=
  [("property",
    ["property_type", "designation", "owner", "owner_name",
     "address", "postal_code", "city", "num_apartments",
     "num_premises", "construction_year", "notes"]),
   ("inspection",
    ["date", "status", "active_time_seconds", "notes"]),
   ("apartment",
    ["apartment_number", "rooms", "notes"]),
   ("defect",
    ["room_index", "code", "title", "description", "remedy", "severity"]),
   ("measurement",
    ["type", "value", "unit", "apartment_number", "sort_key", "notes"])]

/-- `_UPDATABLE.get(entity_type, set())`. -/
def updatable (ety : String) : List String :=
  (updatableTable.lookup ety).getD []

/-- The entity types of `_ENTITY_MODEL`. -/
def knownEntityTypes : List String :=
  ["property", "inspection", "apartment", "defect", "measurement"]

/-- Coercion of an inspection `date` payload value: a string runs
through `date.fromisoformat` (whose `ValueError` is NOT caught by
`_apply_payload`), anything else is assigned as-is. -/
def coerceInspectionDate (value : Val) : Except PyExc Val :=
  match value with
  | Val.vstr s =>
    if isIsoDate s then Except.ok (Val.vdate s)
    else Except.error (PyExc.valueError ("Invalid isoformat string: " ++ s))
  | v => Except.ok v

/-- `SyncService._apply_payload`, iterating the payload items in order:
skip fields outside the allow-list, coerce the enum/date fields
(swallowing their lookup errors), alias `owner_name` to `owner` for
properties, and `setattr` everything else.  The `Except` error models
the uncaught `ValueError` of `date.fromisoformat` on an invalid
inspection date string; the partially mutated in-place entity is
discarded by the caller's session rollback, so only the `ok` result
ever reaches the database. -/
def applyFields (entity : Entity) (ety : String) : Dict → Except PyExc Entity
  | [] => Except.ok entity
  | (field, value) :: rest =>
    if (updatable ety).contains field = false then
      applyFields entity ety rest
    else if ety = "inspection" ∧ field = "status" then
      match tryStatus value with
      | none => applyFields entity ety rest
      | some v => applyFields (dictSet entity field v) ety rest
    else if ety = "inspection" ∧ field = "date" then
      match coerceInspectionDate value with
      | Except.ok v => applyFields (dictSet entity field v) ety rest
      | Except.error e => Except.error e
    else if ety = "defect" ∧ field = "severity" then
      match trySeverity value with
      | none => applyFields entity ety rest
      | some v => applyFields (dictSet entity field v) ety rest
    else if ety = "measurement" ∧ field = "type" then
      match tryMType value with
      | none => applyFields entity ety rest
      | some v => applyFields (dictSet entity field v) ety rest
    else if ety = "property" ∧ field = "owner_name" then
      applyFields (dictSet entity "owner" value) ety rest
    else
      applyFields (dictSet entity field value) ety rest

/-! ### Entity builders (`SyncService._build_*`) -/

/-- The `client_id` attribute value stored on a fresh entity. -/
def cidVal : Option String → Val
  | some u => Val.vstr u
  | none => Val.vnull

/-- `payload.get(k, default)`. -/
def pGet (payload : Dict) (k : String) (default : Val) : Val :=
  (dictGet payload k).getD default

/-- `payload[k]`: `KeyError` when absent. -/
def pIndex (payload : Dict) (k : String) : Except PyExc Val :=
  match dictGet payload k with
  | some v => Except.ok v
  | none => Except.error (PyExc.keyError k)

/-- Resolve a parent reference: `payload.get(idKey)` if truthy, else
look the parent up by `uuid.UUID(payload[cidKey])` when that key is
truthy (`filter_by(client_id=...)`, with no soft-delete filter);
a still-unresolved reference raises the builder's `ValueError`. -/
def resolveParent (db : DB) (parentTable : String) (payload : Dict)
    (idKey cidKey : String) (errMsg : String) : Except PyExc Val := do
  let pid0 := dictGet payload idKey
  let pid ←
    if optTruthy pid0 = false ∧ optTruthy (dictGet payload cidKey) = true then
      match (dictGet payload cidKey).getD Val.vnull with
      | Val.vstr s =>
        match parseUUID s with
        | none => Except.error (PyExc.valueError "badly formed hexadecimal UUID string")
        | some u =>
          match (db.table parentTable).find? (fun e => entityClientId e == some u) with
          | some parent => Except.ok (some (Val.vint (entityId parent)))
          | none => Except.ok pid0
      | _ =>
        Except.error (PyExc.typeError
          "one of the hex, bytes, bytes_le, fields, or int arguments must be given")
    else
      Except.ok pid0
  if optTruthy pid then
    Except.ok (pid.getD Val.vnull)
  else
    Except.error (PyExc.valueError errMsg)

/-- `SyncService._build_property` without the `client_id` column
(attached uniformly by `build_entity`): tolerate a string or dict
address, read units with payload-level fallbacks, require
`designation`. -/
def buildPropertyFields (payload : Dict) (user_id : Nat) : Except PyExc Dict := do
  let spc ←
    match dictGet payload "address" with
    | some (Val.vstr a) => Except.ok (Val.vstr a, Val.vnull, Val.vnull)
    | some (Val.vdict d) =>
      Except.ok ((List.lookup "street" d).getD (Val.vstr ""),
        (List.lookup "postal_code" d).getD Val.vnull,
        (List.lookup "city" d).getD (Val.vstr ""))
    | none => Except.ok (Val.vstr "", Val.vnull, Val.vstr "")
    | some _ => Except.error (PyExc.attributeError "object has no attribute get")
  let units ←
    match dictGet payload "units" with
    | some (Val.vdict d) => Except.ok d
    | none => Except.ok ([] : Dict)
    | some _ => Except.error (PyExc.attributeError "object has no attribute get")
  let designation ← pIndex payload "designation"
  Except.ok
    [("property_type", pGet payload "type" (pGet payload "property_type" (Val.vstr "bostadshus"))),
     ("designation", designation),
     ("owner", pGet payload "owner_name" (pGet payload "owner" Val.vnull)),
     ("address", spc.1), ("postal_code", spc.2.1), ("city", spc.2.2),
     ("num_apartments", (List.lookup "apartments" units).getD (pGet payload "num_apartments" (Val.vint 0))),
     ("num_premises", (List.lookup "premises" units).getD (pGet payload "num_premises" (Val.vint 0))),
     ("construction_year", pGet payload "construction_year" Val.vnull),
     ("notes", pGet payload "notes" Val.vnull)]

/-- `SyncService._build_inspection` without the `client_id` column:
resolve the parent property, parse or default the date
(`date.today()` rendered from the current instant), coerce the status
(unknown values fall back to draft). -/
def buildInspectionFields (db : DB) (now : Nat) (payload : Dict) (user_id : Nat) :
    Except PyExc Dict := do
  let property_id ← resolveParent db "property" payload "property_id"
    "property_client_id" "Cannot resolve property for inspection"
  let raw_date := dictGet payload "date"
  let insp_date ←
    if optTruthy raw_date then
      match raw_date.getD Val.vnull with
      | Val.vstr s =>
        if isIsoDate s then Except.ok (Val.vdate s)
        else Except.error (PyExc.valueError ("Invalid isoformat string: " ++ s))
      | _ => Except.error (PyExc.typeError "fromisoformat: argument must be str")
    else
      Except.ok (Val.vdate (natRepr now))
  let status ←
    match pGet payload "status" (Val.vstr "draft") with
    | Val.vstr s =>
      Except.ok (if inspectionStatuses.contains s.toLower then Val.vstatus s.toLower
        else Val.vstatus "draft")
    | _ => Except.error (PyExc.attributeError "object has no attribute lower")
  Except.ok
    [("property_id", property_id),
     ("inspector_id", pGet payload "inspector_id" (Val.vint user_id)),
     ("date", insp_date),
     ("active_time_seconds", pGet payload "active_time_seconds" (Val.vint 0)),
     ("status", status),
     ("notes", pGet payload "notes" Val.vnull)]

/-- `SyncService._build_apartment` without the `client_id` column. -/
def buildApartmentFields (db : DB) (payload : Dict) (user_id : Nat) :
    Except PyExc Dict := do
  let inspection_id ← resolveParent db "inspection" payload "inspection_id"
    "inspection_client_id" "Cannot resolve inspection for apartment"
  let apartment_number ← pIndex payload "apartment_number"
  Except.ok
    [("inspection_id", inspection_id),
     ("apartment_number", apartment_number),
     ("rooms", pGet payload "rooms" (Val.vlist [])),
     ("notes", pGet payload "notes" Val.vnull)]

/-- `SyncService._build_defect` without the `client_id` column: the
severity name lookup swallows its `KeyError` and falls back to medium;
`description` is required. -/
def buildDefectFields (db : DB) (payload : Dict) (user_id : Nat) :
    Except PyExc Dict := do
  let apartment_id ← resolveParent db "apartment" payload "apartment_id"
    "apartment_client_id" "Cannot resolve apartment for defect"
  let severity ←
    match pGet payload "severity" (Val.vstr "medium") with
    | Val.vstr s => Except.ok ((trySeverity (Val.vstr s)).getD (Val.vsev "medium"))
    | _ => Except.error (PyExc.attributeError "object has no attribute upper")
  let description ← pIndex payload "description"
  Except.ok
    [("apartment_id", apartment_id),
     ("room_index", pGet payload "room_index" (Val.vint 0)),
     ("code", pGet payload "code" Val.vnull),
     ("title", pGet payload "title" Val.vnull),
     ("description", description),
     ("remedy", pGet payload "remedy" Val.vnull),
     ("severity", severity)]

/-- Python `float(v)` as far as the measurement builder needs it
(numeric values are modelled as integers). -/
def pyFloat (v : Val) : Except PyExc Val :=
  match v with
  | Val.vint n => Except.ok (Val.vint n)
  | Val.vstr s =>
    match parsePyInt s.toList with
    | some n => Except.ok (Val.vint n)
    | none => Except.error (PyExc.valueError ("could not convert string to float: " ++ s))
  | _ => Except.error (PyExc.typeError "float() argument must be a string or a real number")

/-- `SyncService._build_measurement` without the `client_id` column:
the type-value lookup swallows its `ValueError` and falls back to
`okand`; `value` and `unit` are required. -/
def buildMeasurementFields (db : DB) (payload : Dict) (user_id : Nat) :
    Except PyExc Dict := do
  let inspection_id ← resolveParent db "inspection" payload "inspection_id"
    "inspection_client_id" "Cannot resolve inspection for measurement"
  let mtype := (tryMType (pGet payload "type" (Val.vstr "okand"))).getD (Val.vmtype "okand")
  let rawValue ← pIndex payload "value"
  let value ← pyFloat rawValue
  let unit ← pIndex payload "unit"
  Except.ok
    [("inspection_id", inspection_id),
     ("type", mtype),
     ("value", value),
     ("unit", unit),
     ("apartment_number", pGet payload "apartment_number" Val.vnull),
     ("sort_key", pGet payload "sort_key" Val.vnull),
     ("notes", pGet payload "notes" Val.vnull)]

/-- `SyncService._build_entity`: dispatch to the per-type builder; the
resulting unpersisted instance carries `client_id` plus the domain
fields (`id`, `revision` and the timestamps are assigned at flush). -/
def build_entity (db : DB) (now : Nat) (ety : String) (cid : Option String)
    (payload : Dict) (user_id : Nat) : Except PyExc Entity := do
  let fields ←
    if ety = "property" then buildPropertyFields payload user_id
    else if ety = "inspection" then buildInspectionFields db now payload user_id
    else if ety = "apartment" then buildApartmentFields db payload user_id
    else if ety = "defect" then buildDefectFields db payload user_id
    else if ety = "measurement" then buildMeasurementFields db payload user_id
    else Except.error (PyExc.valueError ("No builder for entity_type=" ++ ety))
  Except.ok (("client_id", cidVal cid) :: fields)

/-! ### Sync handlers (`SyncService._handle_create/_handle_update/_handle_delete`) -/

/-- Flush-time defaults for a freshly inserted entity.  Modelled from
the spec: the database assigns the next id, `revision` starts at 1,
`deleted_at` is null and both timestamps are the current instant
(`BaseModel` is not in the available sources). -/
def insertDefaults (e : Entity) (newId : Int) (now : Nat) : Entity :=
  dictSet (dictSet (dictSet (dictSet (dictSet e
    "id" (Val.vint newId))
    "revision" (Val.vint 1))
    "deleted_at" Val.vnull)
    "created_at" (Val.vdt now))
    "updated_at" (Val.vdt now)

/-- `SyncService._write_changelog` followed by the caller's flush:
append a row carrying the next change id (`payload` is the entity
snapshot for create/update and `none` for delete). -/
def write_changelog (db : DB) (ety : String) (e : Entity) (action : String)
    (user_id : Nat) (payload : Option Dict) (now : Nat) : DB × Nat :=
  let chId := maxChangeId db.changeLog + 1
  ({ db with changeLog := db.changeLog ++
      [⟨chId, ety, entityId e, action, entityRevision e, payload, user_id, now⟩] }, chId)

/-- Result dict of `SyncService._process_operation`: success (with a
change id and an optional id mapping), revision conflict, or a
validation/not-found error. -/
inductive OpResult where
  | success (change_id : Nat) (id_mapping : Option IdMapEntry)
  | conflict (c : ConflictInfo)
  | error (reason : String)

/-- Success path of `_handle_create` once deduplication has passed:
build (downgrading `KeyError`/`ValueError`/`TypeError` to a
`build_failed` rejection and letting any other exception propagate),
insert and flush, append the create change-log row. -/
def createFresh (db : DB) (now : Nat) (ety : String) (client_id : Option String)
    (cidCanon : Option String) (payload : Dict) (user_id : Nat) :
    Except PyExc (OpResult × DB) :=
  match build_entity db now ety cidCanon payload user_id with
  | Except.error (PyExc.keyError m) => Except.ok (OpResult.error ("build_failed:" ++ m), db)
  | Except.error (PyExc.valueError m) => Except.ok (OpResult.error ("build_failed:" ++ m), db)
  | Except.error (PyExc.typeError m) => Except.ok (OpResult.error ("build_failed:" ++ m), db)
  | Except.error e => Except.error e
  | Except.ok built =>
    let tbl := db.table ety
    let ent := insertDefaults built (maxEntityId tbl + 1) now
    let db' := db.setTable ety (tbl ++ [ent])
    let res := write_changelog db' ety ent "create" user_id (some (to_dict ent)) now
    Except.ok (OpResult.success res.2
      (some ⟨ety, client_id, entityId ent, entityRevision ent⟩), res.1)

/-- `SyncService._handle_create`: deduplicate by `client_id` (an
invalid UUID is rejected; an existing entity with that `client_id` is
acked with its current id and revision, with no soft-delete filter),
otherwise create. -/
def handle_create (db : DB) (now : Nat) (ety : String) (client_id : Option String)
    (payload : Dict) (user_id : Nat) : Except PyExc (OpResult × DB) :=
  if optStrTruthy client_id then
    match parseUUID (client_id.getD "") with
    | none => Except.ok (OpResult.error "invalid_client_id", db)
    | some u =>
      match (db.table ety).find? (fun e => entityClientId e == some u) with
      | some existing =>
        Except.ok (OpResult.success 0
          (some ⟨ety, client_id, entityId existing, entityRevision existing⟩), db)
      | none => createFresh db now ety client_id (some u) payload user_id
  else
    createFresh db now ety client_id none payload user_id

/-- `SyncService._handle_update`: locate (else `not_found`); on a
revision mismatch return the structured conflict without mutating;
otherwise patch, bump the revision, refresh `updated_at` and append
the update change-log row. -/
def handle_update (db : DB) (now : Nat) (ety : String) (server_id : Option Int)
    (client_id : Option String) (base_revision : Int) (payload : Dict)
    (user_id : Nat) : Except PyExc (OpResult × DB) :=
  match entityMatch server_id client_id with
  | none => Except.ok (OpResult.error "not_found", db)
  | some p =>
    match (db.table ety).find? p with
    | none => Except.ok (OpResult.error "not_found", db)
    | some e =>
      if entityRevision e ≠ base_revision then
        Except.ok (OpResult.conflict
          ⟨ety, entityId e, entityRevision e, base_revision,
           some (to_dict e), "fetch_latest_and_merge"⟩, db)
      else do
        let patched ← applyFields e ety payload
        let patched := dictSet patched "revision" (Val.vint (entityRevision patched + 1))
        let patched := dictSet patched "updated_at" (Val.vdt now)
        let db' := db.setTable ety (updateFirst p patched (db.table ety))
        let res := write_changelog db' ety patched "update" user_id
          (some (to_dict patched)) now
        Except.ok (OpResult.success res.2 none, res.1)

/-- `SyncService._handle_delete`: a missing or already soft-deleted
target is an idempotent no-op success; a supplied (truthy) mismatching
`base_revision` is a conflict; otherwise soft-delete, bump the
revision and append the delete change-log row with no snapshot. -/
def handle_delete (db : DB) (now : Nat) (ety : String) (server_id : Option Int)
    (client_id : Option String) (base_revision : Int) (user_id : Nat) :
    OpResult × DB :=
  match entityMatch server_id client_id with
  | none => (OpResult.success 0 none, db)
  | some p =>
    match (db.table ety).find? p with
    | none => (OpResult.success 0 none, db)
    | some e =>
      if base_revision ≠ 0 ∧ entityRevision e ≠ base_revision then
        (OpResult.conflict
          ⟨ety, entityId e, entityRevision e, base_revision, none,
           "fetch_latest_then_delete"⟩, db)
      else
        let e' := dictSet (dictSet (dictSet e
          "deleted_at" (Val.vdt now))
          "revision" (Val.vint (entityRevision e + 1)))
          "updated_at" (Val.vdt now)
        let db' := db.setTable ety (updateFirst p e' (db.table ety))
        let res := write_changelog db' ety e' "delete" user_id none now
        (OpResult.success res.2 none, res.1)

/-! ### Push batch processing (`SyncService.process_push`) -/

/-- A wire-level sync operation (missing wire fields already defaulted
as the `.get` calls of `_process_operation` do: empty strings, `0`
base revision, absent payload). -/
structure Op where
  op_id : String
  entity_type : String
  action : String
  client_id : Option String
  server_id : Option Int
  base_revision : Int
  payload : Option Dict

/-- The payload dict of an op (`op.get("payload") or` the empty dict). -/
def payloadOf (op : Op) : Dict := op.payload.getD []

/-- `SyncService._process_operation`: dispatch on entity type and
action. -/
def process_operation (db : DB) (now : Nat) (user_id : Nat) (op : Op) :
    Except PyExc (OpResult × DB) :=
  if knownEntityTypes.contains op.entity_type = false then
    Except.ok (OpResult.error ("unknown_entity_type:" ++ op.entity_type), db)
  else if op.action = "create" then
    handle_create db now op.entity_type op.client_id (payloadOf op) user_id
  else if op.action = "update" then
    handle_update db now op.entity_type op.server_id op.client_id
      op.base_revision (payloadOf op) user_id
  else if op.action = "delete" then
    Except.ok (handle_delete db now op.entity_type op.server_id op.client_id
      op.base_revision user_id)
  else
    Except.ok (OpResult.error ("unknown_action:" ++ op.action), db)

/-- Per-batch accumulator of `process_push`'s loop. -/
structure PushAcc where
  acked : List String
  rejected : List RejectedOp
  idMap : List IdMapEntry
  latestChange : Nat

/-- The initial accumulator. -/
def emptyAcc : PushAcc := ⟨[], [], [], 0⟩

/-- The SQLAlchemy session: the committed database state plus the
pending (uncommitted, autoflushed) state all queries and mutations
see; `rollback` resets pending to committed, `commit` promotes it. -/
structure Session where
  committed : DB
  pending : DB

/-- Python `str(exc)` of an embedded exception. -/
def excMsg : PyExc → String
  | PyExc.valueError m => m
  | PyExc.keyError m => m
  | PyExc.typeError m => m
  | PyExc.attributeError m => m

/-- Fold one op result into the accumulator, as the loop body of
`process_push` does (the conflict/error dicts produced by the handlers
are never empty, so their Python truthiness tests coincide with the
constructor dispatch here). -/
def applyOpResult (acc : PushAcc) (op_id : String) (r : OpResult) : PushAcc :=
  match r with
  | OpResult.conflict c =>
    { acc with rejected := acc.rejected ++ [⟨op_id, "conflict", some c, none⟩] }
  | OpResult.error reason =>
    { acc with rejected := acc.rejected ++ [⟨op_id, reason, none, none⟩] }
  | OpResult.success chId mapping =>
    { acc with
      acked := acc.acked ++ [op_id],
      idMap := acc.idMap ++ (match mapping with | some m => [m] | none => []),
      latestChange := if chId > acc.latestChange then chId else acc.latestChange }

/-- The op loop of `process_push`: each op runs against the session's
pending state; an unexpected exception rolls the whole session back to
the committed state and records an `internal_error` rejection, and the
loop always continues with the remaining ops. -/
def pushLoop (user_id : Nat) (now : Nat) :
    Session → PushAcc → List Op → Session × PushAcc
  | s, acc, [] => (s, acc)
  | s, acc, op :: rest =>
    match process_operation s.pending now user_id op with
    | Except.error exc =>
      pushLoop user_id now ⟨s.committed, s.committed⟩
        { acc with rejected := acc.rejected ++
            [⟨op.op_id, "internal_error", none, some (excMsg exc)⟩] } rest
    | Except.ok (r, db') =>
      pushLoop user_id now ⟨s.committed, db'⟩ (applyOpResult acc op.op_id r) rest

/-- The body of `process_push` past the idempotency replay check: run
the loop, commit, compute the server cursor (the batch's highest
change id, else the ledger tail), and persist the response under the
idempotency key (a unique-key violation rolls that last insert back,
as the sequential embedding of the race-safety commit guard). -/
def process_push_run (db : DB) (now : Nat) (user_id : Nat) (device_id : String)
    (operations : List Op) (idempotency_key : String) : PushResponse × DB :=
  let run := pushLoop user_id now ⟨db, db⟩ emptyAcc operations
  let committed := run.1.pending
  let latest := if run.2.latestChange = 0 then maxChangeId committed.changeLog
    else run.2.latestChange
  let response : PushResponse :=
    ⟨run.2.acked, run.2.rejected, run.2.idMap, cursor_from_id latest⟩
  let entry : SyncRec := ⟨idempotency_key, device_id, user_id,
    "batch_" ++ idempotency_key, "batch", "push", some response, 200, now + 86400⟩
  let final :=
    if committed.syncLogs.any (fun r => r.idempotency_key == idempotency_key) then
      committed
    else
      { committed with syncLogs := committed.syncLogs ++ [entry] }
  (response, final)

/-- `SyncService.process_push`: replay a stored response for a known
idempotency key with a non-null body, else process the batch. -/
def process_push (db : DB) (now : Nat) (user_id : Nat) (device_id : String)
    (operations : List Op) (idempotency_key : String) : PushResponse × DB :=
  match db.syncLogs.find? (fun r => r.idempotency_key == idempotency_key) with
  | some existing =>
    match existing.response_body with
    | some body => (body, db)
    | none => process_push_run db now user_id device_id operations idempotency_key
  | none => process_push_run db now user_id device_id operations idempotency_key

/-! ### Pull processing (`SyncService.process_pull`) -/

/-- One serialized change of the pull response. -/
structure PullChange where
  change_id : String
  entity_type : String
  server_id : Int
  action : String
  revision : Int
  updated_at : String
  payload : Option Dict

/-- The `/sync/pull` response body. -/
structure PullResponse where
  changes : List PullChange
  next_cursor : String
  has_more : Bool

/-- `row.created_at.isoformat() + "Z"` (instants are rendered by their
index; the exact ISO text is immaterial to every claim). -/
def isoZ (t : Nat) : String := natRepr t ++ "Z"

/-- Serialize one change-log row for the pull response. -/
def renderChange (row : ChangeEntry) : PullChange :=
  ⟨cursor_from_id row.id, row.entity_type, row.server_id, row.action,
   row.revision, isoZ row.created_at, row.payload⟩

/-- `SyncService.process_pull`: decode the cursor, clamp the limit to
`[1, 500]`, fetch `limit + 1` rows with `id > since_id` in ascending
id order (the ledger is append-only with an auto-increment primary
key, so the stored row list is already ascending and the `ORDER BY` is
the identity on it; theorems carry that sortedness invariant as a
hypothesis), page off the extra row into `has_more`, and keep the
cursor stable on an empty page. -/
def process_pull (db : DB) (user_id : Nat) (since_cursor : Option String)
    (limit : Int) : PullResponse :=
  let since_id := id_from_cursor since_cursor
  let lim := (min (max 1 limit) 500).toNat
  let rows := (db.changeLog.filter (fun r => decide (since_id < (r.id : Int)))).take (lim + 1)
  let has_more := decide (rows.length > lim)
  let page := rows.take lim
  let next_cursor :=
    match page.getLast? with
    | some lastRow => cursor_from_id lastRow.id
    | none =>
      match since_cursor with
      | some s => if s ≠ "" then s else cursor_from_id 0
      | none => cursor_from_id 0
  ⟨page.map renderChange, next_cursor, has_more⟩

/-! ### Concrete fixtures used by the witness theorems -/

/-- A canonical 32-hex-digit client UUID. -/
def uuidA : String := String.mk (List.replicate 32 'a')

/-- A second canonical client UUID. -/
def uuidB : String := String.mk (List.replicate 32 'b')

/-- A live inspection entity with id 1 and revision 1. -/
def entInspFix : Entity :=
  [("client_id", Val.vnull), ("id", Val.vint 1), ("revision", Val.vint 1),
   ("deleted_at", Val.vnull), ("updated_at", Val.vdt 0)]

/-- A database holding only that inspection. -/
def dbInspFix : DB := ⟨[("inspection", [entInspFix])], [], []⟩

/-- A valid property-create op. -/
def opCreateFix : Op :=
  ⟨"op1", "property", "create", some uuidB, none, 0,
   some [("designation", Val.vstr "D1")]⟩

/-- An inspection-update op whose invalid date string raises the
uncaught `ValueError` inside `_apply_payload`. -/
def opBadFix : Op :=
  ⟨"op2", "inspection", "update", none, some 1, 1,
   some [("date", Val.vstr "notadate")]⟩

/-- A stored push response body. -/
def bodyFix : PushResponse := ⟨["x"], [], [], "chg_000000000000"⟩

/-- A stored idempotency record for key `k0` holding `bodyFix`. -/
def recFix : SyncRec := ⟨"k0", "dev", 9, "batch_k0", "batch", "push", some bodyFix, 200, 86400⟩

/-- A database holding only that idempotency record. -/
def dbRecFix : DB := ⟨[], [], [recFix]⟩

/-- A live property entity with id 3 and revision 2. -/
def entPropFix : Entity :=
  [("client_id", Val.vstr uuidA), ("id", Val.vint 3), ("revision", Val.vint 2),
   ("deleted_at", Val.vnull), ("updated_at", Val.vdt 0), ("designation", Val.vstr "old")]

/-- A database holding only that property. -/
def dbPropFix : DB := ⟨[("property", [entPropFix])], [], []⟩

/-- Three change-log rows with ascending ids 1..3. -/
def logFix : List ChangeEntry :=
  [⟨1, "property", 1, "create", 1, none, 9, 0⟩,
   ⟨2, "property", 1, "update", 2, none, 9, 1⟩,
   ⟨3, "property", 1, "delete", 3, none, 9, 2⟩]

/-- A database holding only that ledger. -/
def dbLogFix : DB := ⟨[], logFix, []⟩

/-- The database after soft-deleting the fixture inspection. -/
def dbInspDeletedFix : DB := (handle_delete dbInspFix 5 "inspection" (some 1) none 0 9).2

/-- An empty database. -/
def dbEmptyFix : DB := ⟨[], [], []⟩

/-- A second property-create op with the same `client_id` as
`opCreateFix` but its own op id and payload. -/
def opCreateFix2 : Op :=
  ⟨"op3", "property", "create", some uuidB, none, 0,
   some [("designation", Val.vstr "D2")]⟩

/-- The database after the fixture property create against the empty
database. -/
def dbCreatedFix : DB :=
  match handle_create dbEmptyFix 5 "property" (some uuidB)
      [("designation", Val.vstr "D1")] 9 with
  | Except.ok (_, d) => d
  | Except.error _ => dbEmptyFix

/-! ### Helper lemmas -/

theorem lookup_assocSet_ne {β : Type} (d : List (String × β)) (k k' : String) (v : β)
    (h : k ≠ k') : List.lookup k (assocSet d k' v) = List.lookup k d := by
  have hbf : (k == k') = false := beq_eq_false_iff_ne.mpr h
  induction d with
  | nil => simp [assocSet, List.lookup, hbf]
  | cons hd tl ih =>
    obtain ⟨a, b⟩ := hd
    rw [assocSet]
    by_cases ha : a = k'
    · subst ha
      simp [List.lookup, hbf]
    · rw [if_neg ha]
      by_cases hka : k = a
      · subst hka
        simp [List.lookup]
      · have hkaf : (k == a) = false := beq_eq_false_iff_ne.mpr hka
        simp [List.lookup, hkaf, ih]

theorem lookup_assocSet_self {β : Type} (d : List (String × β)) (k : String) (v : β) :
    List.lookup k (assocSet d k v) = some v := by
  induction d with
  | nil => simp [assocSet, List.lookup]
  | cons hd tl ih =>
    obtain ⟨a, b⟩ := hd
    rw [assocSet]
    by_cases ha : a = k
    · subst ha
      simp [List.lookup]
    · rw [if_neg ha]
      have hkaf : (k == a) = false := beq_eq_false_iff_ne.mpr (Ne.symm ha)
      simp [List.lookup, hkaf, ih]

theorem getattr_dictSet_ne (d : Dict) (k k' : String) (v : Val) (h : k ≠ k') :
    getattr (dictSet d k' v) k = getattr d k := by
  show ((dictSet d k' v).lookup k).getD Val.vnull = (d.lookup k).getD Val.vnull
  rw [dictSet, lookup_assocSet_ne d k k' v h]

theorem getattr_dictSet_self (d : Dict) (k : String) (v : Val) :
    getattr (dictSet d k v) k = v := by
  show ((dictSet d k v).lookup k).getD Val.vnull = v
  rw [dictSet, lookup_assocSet_self d k v]
  rfl

/-- Witness for C3: the round trip at 7 and a garbage cursor decoding
to 0. -/
theorem C3_cursor_codec_witness :
    id_from_cursor (some (cursor_from_id 7)) = 7 ∧
    notParseableCursor "garbage" ∧
    id_from_cursor (some "garbage") = 0 :=
  ⟨C3_cursor_codec.1 7, rfl, C3_cursor_codec.2.2.2 "garbage" rfl⟩

/-! ### C7: payload allow-list frame -/

/-- C7: `_apply_payload` assigns only fields of the entity type's
allow-list (the `owner_name` alias writes `owner`, itself allow-listed
for properties): every attribute outside the allow-list — in
particular `id`, `revision`, `client_id`, `deleted_at`, `updated_at`,
which appear in no allow-list — is unchanged, whatever keys the
payload contains. -/
theorem C7_apply_payload_frame :
    (∀ (entity : Entity) (ety : String) (payload : Dict) (patched : Entity) (k : String),
       applyFields entity ety payload = Except.ok patched →
       (updatable ety).contains k = false →
       getattr patched k = getattr entity k) ∧
    (∀ ety k, k ∈ ["id", "revision", "client_id", "deleted_at", "updated_at"] →
       (updatable ety).contains k = false) := by
  constructor
  · intro entity ety payload
    induction payload generalizing entity with
    | nil =>
      intro patched k h hk
      rw [applyFields] at h
      injection h with h
      rw [h]
    | cons hd rest ih =>
      obtain ⟨field, value⟩ := hd
      intro patched k h hk
      rw [applyFields] at h
      by_cases h1 : (updatable ety).contains field = false
      · rw [if_pos h1] at h
        exact ih entity patched k h hk
      · have h1' : (updatable ety).contains field = true := by
          cases hcf : (updatable ety).contains field
          · exact absurd hcf h1
          · rfl
        have hkf : k ≠ field := by
          intro e
          rw [e, h1'] at hk
          exact Bool.noConfusion hk
        rw [if_neg h1] at h
        by_cases h2 : ety = "inspection" ∧ field = "status"
        · rw [if_pos h2] at h
          cases hts : tryStatus value with
          | none =>
            rw [hts] at h
            exact ih entity patched k h hk
          | some v =>
            rw [hts] at h
            exact (ih _ patched k h hk).trans (getattr_dictSet_ne entity k field v hkf)
        · rw [if_neg h2] at h
          by_cases h3 : ety = "inspection" ∧ field = "date"
          · rw [if_pos h3] at h
            cases hcd : coerceInspectionDate value with
            | ok v =>
              rw [hcd] at h
              exact (ih _ patched k h hk).trans (getattr_dictSet_ne entity k field v hkf)
            | error e =>
              rw [hcd] at h
              exact Except.noConfusion h
          · rw [if_neg h3] at h
            by_cases h5 : ety = "defect" ∧ field = "severity"
            · rw [if_pos h5] at h
              cases hsv : trySeverity value with
              | none =>
                rw [hsv] at h
                exact ih entity patched k h hk
              | some v =>
                rw [hsv] at h
                exact (ih _ patched k h hk).trans (getattr_dictSet_ne entity k field v hkf)
            · rw [if_neg h5] at h
              by_cases h6 : ety = "measurement" ∧ field = "type"
              · rw [if_pos h6] at h
                cases hmt : tryMType value with
                | none =>
                  rw [hmt] at h
                  exact ih entity patched k h hk
                | some v =>
                  rw [hmt] at h
                  exact (ih _ patched k h hk).trans (getattr_dictSet_ne entity k field v hkf)
              · rw [if_neg h6] at h
                by_cases h7 : ety = "property" ∧ field = "owner_name"
                · rw [if_pos h7] at h
                  have hko : k ≠ "owner" := by
                    intro e
                    rw [e, h7.1] at hk
                    exact absurd hk (by decide)
                  exact (ih _ patched k h hk).trans
                    (getattr_dictSet_ne entity k "owner" value hko)
                · rw [if_neg h7] at h
                  exact (ih _ patched k h hk).trans
                    (getattr_dictSet_ne entity k field value hkf)
  · intro ety k hk
    show ((updatableTable.lookup ety).getD []).contains k = false
    unfold updatableTable
    fin_cases hk <;> (simp only [List.lookup]; repeat' split) <;> rfl

/-- Witness for C7: a payload that tries to overwrite `id` leaves `id`
untouched while the allow-listed `notes` field is applied. -/
theorem C7_apply_payload_frame_witness :
    applyFields [("id", Val.vint 5)] "property"
        [("id", Val.vint 99), ("notes", Val.vstr "x")] =
      Except.ok [("id", Val.vint 5), ("notes", Val.vstr "x")] ∧
    getattr [("id", Val.vint 5), ("notes", Val.vstr "x")] "id" =
      getattr [("id", Val.vint 5)] "id" :=
  ⟨rfl, C7_apply_payload_frame.1 [("id", Val.vint 5)] "property"
    [("id", Val.vint 99), ("notes", Val.vstr "x")]
    [("id", Val.vint 5), ("notes", Val.vstr "x")] "id" rfl (by decide)⟩

/-! ### C1: batch idempotency replay -/

/-- C1: a push whose idempotency key already has a stored record with
a non-null response body returns that stored body verbatim and leaves
the database untouched, so no entity is created, updated or
soft-deleted, and no change-log row is appended. -/
theorem C1_idempotent_replay (db : DB) (now user_id : Nat) (device_id : String)
    (operations : List Op) (key : String) (stored : SyncRec) (body : PushResponse)
    (hfind : db.syncLogs.find? (fun r => r.idempotency_key == key) = some stored)
    (hbody : stored.response_body = some body) :
    process_push db now user_id device_id operations key = (body, db) ∧
    (process_push db now user_id device_id operations key).2.tables = db.tables ∧
    (process_push db now user_id device_id operations key).2.changeLog = db.changeLog := by
  have h : process_push db now user_id device_id operations key = (body, db) := by
    unfold process_push
    rw [hfind]
    simp only [hbody]
  exact ⟨h, by rw [h], by rw [h]⟩

/-- Witness for C1: replaying key `k0` against the fixture database
returns the stored body and the unchanged database. -/
theorem C1_idempotent_replay_witness :
    process_push dbRecFix 5 9 "dev" [opCreateFix] "k0" = (bodyFix, dbRecFix) :=
  (C1_idempotent_replay dbRecFix 5 9 "dev" [opCreateFix] "k0" recFix bodyFix rfl rfl).1

/-! ### C9: last-write-wins policy -/

/-- C9: with strategy `"LWW"`, the client wins (the client state is
returned with winner `"client"`) iff both `updated_at` timestamps are
present and the client's is strictly greater; on ties or missing
timestamps the server state is returned with winner `"server"`. -/
theorem C9_last_write_wins (server_state client_changes : Dict) (st ct : Option Nat)
    (hs : dictGet server_state "updated_at" = st.map Val.vdt)
    (hc : dictGet client_changes "updated_at" = ct.map Val.vdt) :
    (resolve_conflict server_state client_changes "LWW" =
        Resolution.auto "client" client_changes ∨
     resolve_conflict server_state client_changes "LWW" =
        Resolution.auto "server" server_state) ∧
    (resolve_conflict server_state client_changes "LWW" =
        Resolution.auto "client" client_changes ↔
      ∃ c s, ct = some c ∧ st = some s ∧ s < c) := by
  have hres : resolve_conflict server_state client_changes "LWW" =
      lastWriteWins server_state client_changes := by
    unfold resolve_conflict
    rw [if_pos rfl]
  rw [hres]
  cases ct with
  | none =>
    have h2 : lastWriteWins server_state client_changes =
        Resolution.auto "server" server_state := by
      unfold lastWriteWins
      rw [hs, hc]
      simp [optTruthy]
    rw [h2]
    refine ⟨Or.inr rfl, ?_, ?_⟩
    · intro h
      injection h with h1 _
      exact absurd h1 (by decide)
    · rintro ⟨c, s, hcc, -, -⟩
      exact Option.noConfusion hcc
  | some c =>
    cases st with
    | none =>
      have h2 : lastWriteWins server_state client_changes =
          Resolution.auto "server" server_state := by
        unfold lastWriteWins
        rw [hs, hc]
        simp [optTruthy, valTruthy]
      rw [h2]
      refine ⟨Or.inr rfl, ?_, ?_⟩
      · intro h
        injection h with h1 _
        exact absurd h1 (by decide)
      · rintro ⟨c', s', -, hss, -⟩
        exact Option.noConfusion hss
    | some s =>
      have h2 : lastWriteWins server_state client_changes =
          (if s < c then Resolution.auto "client" client_changes
           else Resolution.auto "server" server_state) := by
        unfold lastWriteWins
        rw [hs, hc]
        simp [optTruthy, valTruthy, pyGt, GT.gt]
      rw [h2]
      by_cases hlt : s < c
      · rw [if_pos hlt]
        exact ⟨Or.inl rfl, fun _ => ⟨c, s, rfl, rfl, hlt⟩, fun _ => rfl⟩
      · rw [if_neg hlt]
        refine ⟨Or.inr rfl, ?_, ?_⟩
        · intro h
          injection h with h1 _
          exact absurd h1 (by decide)
        · rintro ⟨c', s', hcc, hss, hlt'⟩
          injection hcc with e1
          injection hss with e2
          subst e1
          subst e2
          exact absurd hlt' hlt

/-- Witness for C9: a client timestamp strictly newer than the
server's makes the client win with the client state. -/
theorem C9_last_write_wins_witness :
    resolve_conflict [("updated_at", Val.vdt 100)] [("updated_at", Val.vdt 200)] "LWW" =
      Resolution.auto "client" [("updated_at", Val.vdt 200)] :=
  ((C9_last_write_wins [("updated_at", Val.vdt 100)] [("updated_at", Val.vdt 200)]
    (some 100) (some 200) rfl rfl).2).mpr ⟨200, 100, rfl, rfl, by omega⟩

theorem countP_le_one_of_pairwise_id {l : List Entity} {sid : Int}
    (hp : List.Pairwise (fun a b => entityId a ≠ entityId b) l) :
    l.countP (fun e => entityId e == sid && entityNotDeleted e) ≤ 1 := by
  induction l with
  | nil => simp
  | cons a xs ih =>
    rw [List.pairwise_cons] at hp
    rw [List.countP_cons]
    by_cases hpa : (entityId a == sid && entityNotDeleted a) = true
    · have hida : entityId a = sid := by
        have := (Bool.and_eq_true _ _).mp hpa
        exact beq_iff_eq.mp this.1
      have hz : xs.countP (fun e => entityId e == sid && entityNotDeleted e) = 0 := by
        rw [List.countP_eq_zero]
        intro x hx hpx
        have hidx : entityId x = sid := by
          have := (Bool.and_eq_true _ _).mp hpx
          exact beq_iff_eq.mp this.1
        exact hp.1 x hx (hida.trans hidx.symm)
      rw [hz]
      simp [hpa]
    · have hb : (entityId a == sid && entityNotDeleted a) = false :=
        Bool.eq_false_iff.mpr hpa
      rw [hb]
      simpa using ih hp.2

theorem find?_updateFirst_none {p : Entity → Bool} {e' : Entity} {l : List Entity}
    (hc : l.countP p ≤ 1) (hm : p e' = false) :
    (updateFirst p e' l).find? p = none := by
  induction l with
  | nil => rfl
  | cons x xs ih =>
    rw [updateFirst]
    by_cases hpx : p x = true
    · rw [if_pos hpx]
      rw [List.find?_cons_of_neg _ (by rw [hm]; exact Bool.false_ne_true)]
      rw [List.find?_eq_none]
      intro a ha hpa
      have : xs.countP p = 0 := by
        rw [List.countP_cons, if_pos hpx] at hc
        omega
      rw [List.countP_eq_zero] at this
      exact this a ha hpa
    · rw [if_neg hpx]
      have hxf : p x = false := Bool.eq_false_iff.mpr hpx
      rw [List.find?_cons_of_neg _ (by rw [hxf]; exact Bool.false_ne_true)]
      apply ih
      rw [List.countP_cons, if_neg hpx] at hc
      omega

/-! ### C2: conflicting update mutates nothing -/

/-- C2: an update whose target exists with a revision different from
`base_revision` mutates nothing — the database (hence the entity's
revision, `updated_at` and every payload field) is returned unchanged
and no change-log row is appended — and yields the structured conflict
carrying the current revision and the full server snapshot; the push
loop records any such conflict as a rejected op with reason
`"conflict"` and keeps processing. -/
theorem C2_update_conflict
    (db : DB) (now : Nat) (ety : String) (sid : Option Int) (cid : Option String)
    (base_revision : Int) (payload : Dict) (user_id : Nat) (e : Entity)
    (hfe : find_entity db ety sid cid = some e)
    (hrev : entityRevision e ≠ base_revision) :
    handle_update db now ety sid cid base_revision payload user_id =
      Except.ok (OpResult.conflict
        ⟨ety, entityId e, entityRevision e, base_revision,
         some (to_dict e), "fetch_latest_and_merge"⟩, db) ∧
    (∀ (uid nowL : Nat) (s : Session) (acc : PushAcc) (op : Op) (rest : List Op)
       (c : ConflictInfo) (db' : DB),
       process_operation s.pending nowL uid op = Except.ok (OpResult.conflict c, db') →
       pushLoop uid nowL s acc (op :: rest) =
         pushLoop uid nowL ⟨s.committed, db'⟩
           { acc with rejected := acc.rejected ++ [⟨op.op_id, "conflict", some c, none⟩] }
           rest) := by
  constructor
  · unfold find_entity at hfe
    cases hm : entityMatch sid cid with
    | none =>
      rw [hm] at hfe
      exact Option.noConfusion hfe
    | some p =>
      simp only [hm] at hfe
      simp only [handle_update, hm, hfe]
      rw [if_pos hrev]
  · intro uid nowL s acc op rest c db' hproc
    rw [pushLoop, hproc]
    rfl

/-- Witness for C2: updating the revision-2 property with
`base_revision = 1` returns the conflict and the unchanged database. -/
theorem C2_update_conflict_witness :
    handle_update dbPropFix 7 "property" (some 3) none 1 [("notes", Val.vstr "n")] 9 =
      Except.ok (OpResult.conflict
        ⟨"property", 3, 2, 1, some (to_dict entPropFix), "fetch_latest_and_merge"⟩,
       dbPropFix) :=
  (C2_update_conflict dbPropFix 7 "property" (some 3) none 1 [("notes", Val.vstr "n")] 9
    entPropFix rfl (by decide)).1

/-! ### C5: idempotent delete -/

/-- C5: a delete whose target is missing or already soft-deleted is an
idempotent no-op success: the database is returned unchanged (no
entity mutated, no change-log row appended) and the push loop acks the
op; consequently a second delete of an entity just soft-deleted by
server id (ids being unique in its table) changes neither the ledger
nor the entity again. -/
theorem C5_idempotent_delete :
    (∀ (db : DB) (now : Nat) (ety : String) (sid : Option Int) (cid : Option String)
       (base : Int) (uid : Nat),
       find_entity db ety sid cid = none →
       handle_delete db now ety sid cid base uid = (OpResult.success 0 none, db)) ∧
    (∀ (uid nowL : Nat) (s : Session) (acc : PushAcc) (op : Op) (rest : List Op),
       process_operation s.pending nowL uid op =
         Except.ok (OpResult.success 0 none, s.pending) →
       pushLoop uid nowL s acc (op :: rest) =
         pushLoop uid nowL s { acc with acked := acc.acked ++ [op.op_id] } rest) ∧
    (∀ (db db₂ : DB) (now now₂ : Nat) (ety : String) (sid : Option Int)
       (base base₂ : Int) (uid uid₂ : Nat) (ch : Nat),
       optIntTruthy sid = true →
       List.Pairwise (fun a b => entityId a ≠ entityId b) (db.table ety) →
       handle_delete db now ety sid none base uid = (OpResult.success ch none, db₂) →
       ch ≠ 0 →
       handle_delete db₂ now₂ ety sid none base₂ uid₂ = (OpResult.success 0 none, db₂)) := by
  refine ⟨?_, ?_, ?_⟩
  · intro db now ety sid cid base uid hfe
    unfold find_entity at hfe
    cases hm : entityMatch sid cid with
    | none => simp only [handle_delete, hm]
    | some p =>
      simp only [hm] at hfe
      simp only [handle_delete, hm, hfe]
  · intro uid nowL s acc op rest hproc
    rw [pushLoop, hproc]
    simp [applyOpResult, Nat.not_lt_zero]
  · intro db db₂ now now₂ ety sid base base₂ uid uid₂ ch hsid hpair hdel hch
    have hm : entityMatch sid none =
        some (fun e => entityId e == sid.getD 0 && entityNotDeleted e) := by
      unfold entityMatch
      rw [if_pos hsid]
    rw [handle_delete, hm] at hdel
    simp only [] at hdel
    cases hf : (db.table ety).find? (fun e => entityId e == sid.getD 0 && entityNotDeleted e) with
    | none =>
      simp only [hf] at hdel
      rw [Prod.mk.injEq] at hdel
      injection hdel.1 with h0 _
      exact absurd h0.symm hch
    | some e =>
      simp only [hf] at hdel
      by_cases hcf : base ≠ 0 ∧ entityRevision e ≠ base
      · rw [if_pos hcf] at hdel
        rw [Prod.mk.injEq] at hdel
        exact OpResult.noConfusion hdel.1
      · rw [if_neg hcf] at hdel
        rw [Prod.mk.injEq] at hdel
        have hmark : (fun e => entityId e == sid.getD 0 && entityNotDeleted e)
            (dictSet (dictSet (dictSet e "deleted_at" (Val.vdt now))
              "revision" (Val.vint (entityRevision e + 1)))
              "updated_at" (Val.vdt now)) = false := by
          have hdel_attr : getattr (dictSet (dictSet (dictSet e "deleted_at" (Val.vdt now))
              "revision" (Val.vint (entityRevision e + 1)))
              "updated_at" (Val.vdt now)) "deleted_at" = Val.vdt now := by
            rw [getattr_dictSet_ne _ _ _ _ (by decide),
              getattr_dictSet_ne _ _ _ _ (by decide),
              getattr_dictSet_self]
          show (_ && entityNotDeleted _) = false
          rw [entityNotDeleted, hdel_attr]
          exact Bool.and_false _
        have htab : db₂.table ety = updateFirst
            (fun e => entityId e == sid.getD 0 && entityNotDeleted e)
            (dictSet (dictSet (dictSet e "deleted_at" (Val.vdt now))
              "revision" (Val.vint (entityRevision e + 1)))
              "updated_at" (Val.vdt now))
            (db.table ety) := by
          rw [← hdel.2]
          show (List.lookup ety (assocSet db.tables ety _)).getD [] = _
          rw [lookup_assocSet_self]
          rfl
        have hf₂ : (db₂.table ety).find?
            (fun e => entityId e == sid.getD 0 && entityNotDeleted e) = none := by
          rw [htab]
          exact find?_updateFirst_none (countP_le_one_of_pairwise_id hpair) hmark
        simp only [handle_delete, hm, hf₂]

/-- Witness for C5: deleting a missing entity is a no-op ack; deleting
the live inspection once and then again leaves the second call a no-op
on the unchanged database. -/
theorem C5_idempotent_delete_witness :
    handle_delete dbInspFix 5 "inspection" (some 99) none 0 9 =
      (OpResult.success 0 none, dbInspFix) ∧
    handle_delete dbInspDeletedFix 6 "inspection" (some 1) none 0 8 =
      (OpResult.success 0 none, dbInspDeletedFix) :=
  ⟨C5_idempotent_delete.1 dbInspFix 5 "inspection" (some 99) none 0 9 rfl,
   C5_idempotent_delete.2.2 dbInspFix dbInspDeletedFix 5 6 "inspection" (some 1) 0 0 9 8 1
     rfl (by decide) rfl (by decide)⟩

/-! ### Push-loop structure lemmas -/

theorem pushLoop_append (uid now : Nat) (s : Session) (acc : PushAcc) (l₁ l₂ : List Op) :
    pushLoop uid now s acc (l₁ ++ l₂) =
      pushLoop uid now (pushLoop uid now s acc l₁).1 (pushLoop uid now s acc l₁).2 l₂ := by
  induction l₁ generalizing s acc with
  | nil => rfl
  | cons op rest ih =>
    rw [List.cons_append]
    cases hp : process_operation s.pending now uid op with
    | error exc =>
      simp only [pushLoop, hp]
      exact ih _ _
    | ok rdb =>
      obtain ⟨r, db'⟩ := rdb
      simp only [pushLoop, hp]
      exact ih _ _

theorem pushLoop_committed (uid now : Nat) (s : Session) (acc : PushAcc) (ops : List Op) :
    (pushLoop uid now s acc ops).1.committed = s.committed := by
  induction ops generalizing s acc with
  | nil => rfl
  | cons op rest ih =>
    cases hp : process_operation s.pending now uid op with
    | error exc =>
      simp only [pushLoop, hp]
      exact ih _ _
    | ok rdb =>
      obtain ⟨r, db'⟩ := rdb
      simp only [pushLoop, hp]
      exact ih _ _

theorem process_push_run_parts (db : DB) (now uid : Nat) (did : String) (ops : List Op)
    (key : String) :
    (process_push_run db now uid did ops key).1.acked_op_ids =
      (pushLoop uid now ⟨db, db⟩ emptyAcc ops).2.acked ∧
    (process_push_run db now uid did ops key).1.rejected_ops =
      (pushLoop uid now ⟨db, db⟩ emptyAcc ops).2.rejected ∧
    (process_push_run db now uid did ops key).2.tables =
      (pushLoop uid now ⟨db, db⟩ emptyAcc ops).1.pending.tables ∧
    (process_push_run db now uid did ops key).2.changeLog =
      (pushLoop uid now ⟨db, db⟩ emptyAcc ops).1.pending.changeLog := by
  refine ⟨rfl, rfl, ?_, ?_⟩ <;>
    (simp only [process_push_run]; split <;> rfl)

theorem applyOpResult_rejected (acc : PushAcc) (op_id : String) (r : OpResult) :
    ∃ t, (applyOpResult acc op_id r).rejected = acc.rejected ++ t := by
  cases r with
  | success chId mp => exact ⟨[], by simp [applyOpResult]⟩
  | conflict c => exact ⟨_, rfl⟩
  | error reason => exact ⟨_, rfl⟩

theorem pushLoop_rejected_mono (uid now : Nat) (s : Session) (acc : PushAcc) (ops : List Op) :
    ∃ t, (pushLoop uid now s acc ops).2.rejected = acc.rejected ++ t := by
  induction ops generalizing s acc with
  | nil => exact ⟨[], by simp [pushLoop]⟩
  | cons op rest ih =>
    cases hp : process_operation s.pending now uid op with
    | error exc =>
      simp only [pushLoop, hp]
      obtain ⟨t, ht⟩ := ih ⟨s.committed, s.committed⟩
        { acc with rejected := acc.rejected ++
            [⟨op.op_id, "internal_error", none, some (excMsg exc)⟩] }
      exact ⟨_, by rw [ht, List.append_assoc]⟩
    | ok rdb =>
      obtain ⟨r, db'⟩ := rdb
      simp only [pushLoop, hp]
      obtain ⟨t₁, ht₁⟩ := applyOpResult_rejected acc op.op_id r
      obtain ⟨t, ht⟩ := ih ⟨s.committed, db'⟩ (applyOpResult acc op.op_id r)
      exact ⟨t₁ ++ t, by rw [ht, ht₁, List.append_assoc]⟩

theorem find?_append_none {α : Type} (p : α → Bool) (l₁ l₂ : List α)
    (h : l₁.find? p = none) : (l₁ ++ l₂).find? p = l₂.find? p := by
  induction l₁ with
  | nil => rfl
  | cons a as ih =>
    rw [List.cons_append]
    cases hpa : p a with
    | true =>
      rw [List.find?_cons_of_pos _ hpa] at h
      exact Option.noConfusion h
    | false =>
      rw [List.find?_cons_of_neg _ (by simp [hpa])] at h
      rw [List.find?_cons_of_neg _ (by simp [hpa])]
      exact ih h

theorem any_false_of_find?_none {α : Type} {p : α → Bool} {l : List α}
    (h : l.find? p = none) : l.any p = false := by
  rw [List.find?_eq_none] at h
  rw [Bool.eq_false_iff]
  intro hany
  obtain ⟨x, hx, hpx⟩ := List.any_eq_true.mp hany
  exact h x hx hpx

theorem process_push_run_idmap (db : DB) (now uid : Nat) (did : String) (ops : List Op)
    (key : String) :
    (process_push_run db now uid did ops key).1.id_map =
      (pushLoop uid now ⟨db, db⟩ emptyAcc ops).2.idMap := rfl

theorem process_push_run_final (db : DB) (now uid : Nat) (did : String) (ops : List Op)
    (key : String) :
    (process_push_run db now uid did ops key).2 =
      (if ((pushLoop uid now ⟨db, db⟩ emptyAcc ops).1.pending).syncLogs.any
          (fun r => r.idempotency_key == key) then
        (pushLoop uid now ⟨db, db⟩ emptyAcc ops).1.pending
       else
        { (pushLoop uid now ⟨db, db⟩ emptyAcc ops).1.pending with
          syncLogs := (pushLoop uid now ⟨db, db⟩ emptyAcc ops).1.pending.syncLogs ++
            [⟨key, did, uid, "batch_" ++ key, "batch", "push",
              some (process_push_run db now uid did ops key).1, 200, now + 86400⟩] }) := rfl

theorem except_bind_cons_inv {x : Except PyExc Dict} {cid : Option String} {built : Entity}
    (h : (do
        let y ← x
        Except.ok (("client_id", cidVal cid) :: y)) = Except.ok built) :
    ∃ fields, x = Except.ok fields ∧ built = ("client_id", cidVal cid) :: fields := by
  cases x with
  | error e => exact Except.noConfusion h
  | ok y =>
    refine ⟨y, rfl, ?_⟩
    injection h with h
    exact h.symm

theorem process_push_of_find?_none {db : DB} {now uid : Nat} {did : String}
    {ops : List Op} {key : String}
    (h : db.syncLogs.find? (fun r => r.idempotency_key == key) = none) :
    process_push db now uid did ops key = process_push_run db now uid did ops key := by
  unfold process_push
  rw [h]

theorem build_entity_clientId {db : DB} {now : Nat} {ety : String} {cid : Option String}
    {payload : Dict} {uid : Nat} {built : Entity}
    (hb : build_entity db now ety cid payload uid = Except.ok built) :
    ∃ fields, built = ("client_id", cidVal cid) :: fields := by
  unfold build_entity at hb
  by_cases h1 : ety = "property"
  · simp only [if_pos h1] at hb
    exact (except_bind_cons_inv hb).imp (fun _ h => h.2)
  · simp only [if_neg h1] at hb
    by_cases h2 : ety = "inspection"
    · simp only [if_pos h2] at hb
      exact (except_bind_cons_inv hb).imp (fun _ h => h.2)
    · simp only [if_neg h2] at hb
      by_cases h3 : ety = "apartment"
      · simp only [if_pos h3] at hb
        exact (except_bind_cons_inv hb).imp (fun _ h => h.2)
      · simp only [if_neg h3] at hb
        by_cases h4 : ety = "defect"
        · simp only [if_pos h4] at hb
          exact (except_bind_cons_inv hb).imp (fun _ h => h.2)
        · simp only [if_neg h4] at hb
          by_cases h5 : ety = "measurement"
          · simp only [if_pos h5] at hb
            exact (except_bind_cons_inv hb).imp (fun _ h => h.2)
          · simp only [if_neg h5] at hb
            exact Except.noConfusion hb

/-! ### C8: unexpected exceptions are downgraded, the batch continues -/

/-- C8: an op whose processing raises an unexpected exception is
caught: the loop rolls the session back, records the op as rejected
with reason `"internal_error"` carrying the exception text, and
continues with all remaining ops (the loop and `process_push` are
total, so the exception never propagates); in the full-batch response
of a fresh key, that rejection is present among `rejected_ops`. -/
theorem C8_internal_error_continues :
    (∀ (uid now : Nat) (s : Session) (acc : PushAcc) (op : Op) (rest : List Op) (exc : PyExc),
       process_operation s.pending now uid op = Except.error exc →
       pushLoop uid now s acc (op :: rest) =
         pushLoop uid now ⟨s.committed, s.committed⟩
           { acc with rejected := acc.rejected ++
               [⟨op.op_id, "internal_error", none, some (excMsg exc)⟩] } rest) ∧
    (∀ (db : DB) (now uid : Nat) (did key : String) (ops₁ ops₂ : List Op) (op : Op)
       (exc : PyExc),
       db.syncLogs.find? (fun r => r.idempotency_key == key) = none →
       process_operation (pushLoop uid now ⟨db, db⟩ emptyAcc ops₁).1.pending now uid op =
         Except.error exc →
       (⟨op.op_id, "internal_error", none, some (excMsg exc)⟩ : RejectedOp) ∈
         (process_push db now uid did (ops₁ ++ op :: ops₂) key).1.rejected_ops) := by
  have hstep : ∀ (uid now : Nat) (s : Session) (acc : PushAcc) (op : Op) (rest : List Op)
      (exc : PyExc),
      process_operation s.pending now uid op = Except.error exc →
      pushLoop uid now s acc (op :: rest) =
        pushLoop uid now ⟨s.committed, s.committed⟩
          { acc with rejected := acc.rejected ++
              [⟨op.op_id, "internal_error", none, some (excMsg exc)⟩] } rest := by
    intro uid now s acc op rest exc hp
    simp only [pushLoop, hp]
  refine ⟨hstep, ?_⟩
  intro db now uid did key ops₁ ops₂ op exc hfresh hexc
  have hrun : process_push db now uid did (ops₁ ++ op :: ops₂) key =
      process_push_run db now uid did (ops₁ ++ op :: ops₂) key := by
    unfold process_push
    rw [hfresh]
  rw [hrun]
  have hresp : (process_push_run db now uid did (ops₁ ++ op :: ops₂) key).1.rejected_ops =
      (pushLoop uid now ⟨db, db⟩ emptyAcc (ops₁ ++ op :: ops₂)).2.rejected := rfl
  rw [hresp]
  rw [pushLoop_append]
  rw [hstep uid now _ _ op ops₂ exc hexc]
  obtain ⟨t, ht⟩ := pushLoop_rejected_mono uid now
    ⟨(pushLoop uid now ⟨db, db⟩ emptyAcc ops₁).1.committed,
     (pushLoop uid now ⟨db, db⟩ emptyAcc ops₁).1.committed⟩
    { (pushLoop uid now ⟨db, db⟩ emptyAcc ops₁).2 with
      rejected := (pushLoop uid now ⟨db, db⟩ emptyAcc ops₁).2.rejected ++
        [⟨op.op_id, "internal_error", none, some (excMsg exc)⟩] } ops₂
  rw [ht]
  exact List.mem_append.mpr (Or.inl (List.mem_append.mpr (Or.inr (List.mem_singleton.mpr rfl))))

/-- Witness for C8: in the fixture batch the create op is followed by
the date-raising update and the rejection is recorded with the
exception text. -/
theorem C8_internal_error_continues_witness :
    (⟨"op2", "internal_error", none,
        some "Invalid isoformat string: notadate"⟩ : RejectedOp) ∈
      (process_push dbInspFix 5 9 "dev" ([opCreateFix] ++ opBadFix :: []) "k1").1.rejected_ops :=
  C8_internal_error_continues.2 dbInspFix 5 9 "dev" "k1" [opCreateFix] [] opBadFix
    (PyExc.valueError "Invalid isoformat string: notadate") rfl rfl

/-! ### C10: the rollback discards earlier pending mutations but keeps their acks -/

/-- C10: when the batch's last op raises an unexpected exception, the
handler's session-wide rollback discards the still-uncommitted entity
and change-log mutations of every earlier successfully processed op of
the batch — the final tables and ledger equal the pre-push ones —
while those earlier ops' op_ids remain listed in `acked_op_ids` of the
returned response. -/
theorem C10_rollback_keeps_acks
    (db : DB) (now uid : Nat) (did key : String) (ops₁ : List Op) (op : Op) (exc : PyExc)
    (hfresh : db.syncLogs.find? (fun r => r.idempotency_key == key) = none)
    (hexc : process_operation (pushLoop uid now ⟨db, db⟩ emptyAcc ops₁).1.pending now uid op =
      Except.error exc) :
    (process_push db now uid did (ops₁ ++ [op]) key).1.acked_op_ids =
      (pushLoop uid now ⟨db, db⟩ emptyAcc ops₁).2.acked ∧
    (process_push db now uid did (ops₁ ++ [op]) key).2.tables = db.tables ∧
    (process_push db now uid did (ops₁ ++ [op]) key).2.changeLog = db.changeLog := by
  have hrun : process_push db now uid did (ops₁ ++ [op]) key =
      process_push_run db now uid did (ops₁ ++ [op]) key := by
    unfold process_push
    rw [hfresh]
  have hloop : pushLoop uid now ⟨db, db⟩ emptyAcc (ops₁ ++ [op]) =
      (⟨db, db⟩,
       { (pushLoop uid now ⟨db, db⟩ emptyAcc ops₁).2 with
         rejected := (pushLoop uid now ⟨db, db⟩ emptyAcc ops₁).2.rejected ++
           [⟨op.op_id, "internal_error", none, some (excMsg exc)⟩] }) := by
    rw [pushLoop_append]
    simp only [pushLoop, hexc]
    have hc := pushLoop_committed uid now ⟨db, db⟩ emptyAcc ops₁
    rw [hc]
  rw [hrun]
  obtain ⟨ha, -, ht, hc⟩ := process_push_run_parts db now uid did (ops₁ ++ [op]) key
  rw [ha, ht, hc, hloop]
  exact ⟨rfl, rfl, rfl⟩

/-- Witness for C10: the create op's entity and change-log row are
rolled back by the failing sibling, yet `op1` is still acked. -/
theorem C10_rollback_keeps_acks_witness :
    (process_push dbInspFix 5 9 "dev" ([opCreateFix] ++ [opBadFix]) "k1").1.acked_op_ids =
      ["op1"] ∧
    (process_push dbInspFix 5 9 "dev" ([opCreateFix] ++ [opBadFix]) "k1").2.tables =
      dbInspFix.tables ∧
    (process_push dbInspFix 5 9 "dev" ([opCreateFix] ++ [opBadFix]) "k1").2.changeLog =
      dbInspFix.changeLog := by
  have h := C10_rollback_keeps_acks dbInspFix 5 9 "dev" "k1" [opCreateFix] opBadFix
    (PyExc.valueError "Invalid isoformat string: notadate") rfl rfl
  exact ⟨h.1.trans rfl, h.2.1, h.2.2⟩

/-! ### C4: client-id-idempotent create -/

/-- C4: a create whose `client_id` already names an existing entity
creates nothing and appends no change-log row, acking instead with an
`id_map` entry carrying the existing entity's server id and revision;
hence two single-op create pushes with the same `client_id` under two
different fresh idempotency keys yield exactly one entity — the second
push's `id_map` reports the first's `server_id`, and its batch leaves
the tables and the ledger unchanged. -/
theorem C4_create_dedup :
    (∀ (db : DB) (now : Nat) (ety c u : String) (payload : Dict) (uid : Nat) (e : Entity),
       parseUUID c = some u →
       (db.table ety).find? (fun e => entityClientId e == some u) = some e →
       handle_create db now ety (some c) payload uid =
         Except.ok (OpResult.success 0
           (some ⟨ety, some c, entityId e, entityRevision e⟩), db)) ∧
    (∀ (db : DB) (now₁ now₂ uid₁ uid₂ : Nat) (did₁ did₂ key₁ key₂ c u : String)
       (op₁ op₂ : Op) (ch : Nat) (m : IdMapEntry) (db' : DB),
       op₁.action = "create" → op₂.action = "create" →
       op₂.entity_type = op₁.entity_type →
       knownEntityTypes.contains op₁.entity_type = true →
       op₁.client_id = some c → op₂.client_id = some c →
       parseUUID c = some u →
       db.syncLogs.find? (fun r => r.idempotency_key == key₁) = none →
       db.syncLogs.find? (fun r => r.idempotency_key == key₂) = none →
       key₂ ≠ key₁ →
       (db.table op₁.entity_type).find? (fun e => entityClientId e == some u) = none →
       handle_create db now₁ op₁.entity_type (some c) (payloadOf op₁) uid₁ =
         Except.ok (OpResult.success ch (some m), db') →
       (process_push db now₁ uid₁ did₁ [op₁] key₁).1.id_map = [m] ∧
       ((process_push db now₁ uid₁ did₁ [op₁] key₁).2.table op₁.entity_type).length =
         (db.table op₁.entity_type).length + 1 ∧
       (process_push (process_push db now₁ uid₁ did₁ [op₁] key₁).2
           now₂ uid₂ did₂ [op₂] key₂).1.id_map =
         [⟨op₂.entity_type, some c, m.server_id, m.revision⟩] ∧
       (process_push (process_push db now₁ uid₁ did₁ [op₁] key₁).2
           now₂ uid₂ did₂ [op₂] key₂).2.tables =
         (process_push db now₁ uid₁ did₁ [op₁] key₁).2.tables ∧
       (process_push (process_push db now₁ uid₁ did₁ [op₁] key₁).2
           now₂ uid₂ did₂ [op₂] key₂).2.changeLog =
         (process_push db now₁ uid₁ did₁ [op₁] key₁).2.changeLog) := by
  have hParseNe : ∀ (c u : String), parseUUID c = some u → c ≠ "" := by
    intro c u hu hceq
    rw [hceq] at hu
    have h0 : parseUUID "" = none := rfl
    rw [h0] at hu
    exact Option.noConfusion hu
  have hDedup : ∀ (db : DB) (now : Nat) (ety c u : String) (payload : Dict) (uid : Nat)
      (e : Entity),
      parseUUID c = some u →
      (db.table ety).find? (fun e => entityClientId e == some u) = some e →
      handle_create db now ety (some c) payload uid =
        Except.ok (OpResult.success 0
          (some ⟨ety, some c, entityId e, entityRevision e⟩), db) := by
    intro db now ety c u payload uid e hu hfind
    have htr : optStrTruthy (some c) = true := by
      simp [optStrTruthy, hParseNe c u hu]
    unfold handle_create
    rw [if_pos htr]
    simp only [Option.getD_some, hu, hfind]
  refine ⟨hDedup, ?_⟩
  intro db now₁ now₂ uid₁ uid₂ did₁ did₂ key₁ key₂ c u op₁ op₂ ch m db'
    hact₁ hact₂ hty hknown hcid₁ hcid₂ hu hfresh₁ hfresh₂ hkne hfind hcreate
  have hknownF : ¬ (knownEntityTypes.contains op₁.entity_type = false) := by
    rw [hknown]
    exact fun h => Bool.noConfusion h
  have htr : optStrTruthy (some c) = true := by
    simp [optStrTruthy, hParseNe c u hu]
  have hcreate' := hcreate
  unfold handle_create at hcreate'
  rw [if_pos htr] at hcreate'
  simp only [Option.getD_some, hu, hfind] at hcreate'
  unfold createFresh at hcreate'
  cases hb : build_entity db now₁ op₁.entity_type (some u) (payloadOf op₁) uid₁ with
  | error exc =>
    cases exc <;> simp only [hb] at hcreate' <;>
      first
        | exact Except.noConfusion hcreate'
        | (injection hcreate' with h1
           injection h1 with h2 h3
           exact OpResult.noConfusion h2)
  | ok built =>
  simp only [hb] at hcreate'
  injection hcreate' with h1
  injection h1 with hres hdb'
  injection hres with hch hmap
  injection hmap with hmap
  obtain ⟨fields, hbuilt⟩ := build_entity_clientId hb
  set newEnt : Entity :=
    insertDefaults built (maxEntityId (db.table op₁.entity_type) + 1) now₁ with hnewEnt
  have hcidE : entityClientId newEnt = some u := by
    rw [hnewEnt]
    unfold insertDefaults entityClientId
    rw [getattr_dictSet_ne _ _ _ _ (by decide), getattr_dictSet_ne _ _ _ _ (by decide),
      getattr_dictSet_ne _ _ _ _ (by decide), getattr_dictSet_ne _ _ _ _ (by decide),
      getattr_dictSet_ne _ _ _ _ (by decide), hbuilt]
    rfl
  have hdbT : db'.tables =
      assocSet db.tables op₁.entity_type (db.table op₁.entity_type ++ [newEnt]) := by
    rw [← hdb']
    rfl
  have hdbS : db'.syncLogs = db.syncLogs := by
    rw [← hdb']
    rfl
  have hdbTable : db'.table op₁.entity_type = db.table op₁.entity_type ++ [newEnt] := by
    unfold DB.table
    rw [hdbT, lookup_assocSet_self]
    rfl
  have hproc₁ : process_operation db now₁ uid₁ op₁ =
      Except.ok (OpResult.success ch (some m), db') := by
    unfold process_operation
    rw [if_neg hknownF, if_pos hact₁, hcid₁]
    exact hcreate
  have hloop₁ : pushLoop uid₁ now₁ ⟨db, db⟩ emptyAcc [op₁] =
      (⟨db, db'⟩, applyOpResult emptyAcc op₁.op_id (OpResult.success ch (some m))) := by
    simp only [pushLoop, hproc₁]
  have hpush₁ : process_push db now₁ uid₁ did₁ [op₁] key₁ =
      process_push_run db now₁ uid₁ did₁ [op₁] key₁ :=
    process_push_of_find?_none hfresh₁
  have hcond₁ : ¬ (db'.syncLogs.any (fun r => r.idempotency_key == key₁) = true) := by
    intro hx
    rw [hdbS, any_false_of_find?_none hfresh₁] at hx
    exact Bool.noConfusion hx
  have hfinal₁ : (process_push_run db now₁ uid₁ did₁ [op₁] key₁).2 =
      { db' with syncLogs := db'.syncLogs ++
          [⟨key₁, did₁, uid₁, "batch_" ++ key₁, "batch", "push",
            some (process_push_run db now₁ uid₁ did₁ [op₁] key₁).1, 200, now₁ + 86400⟩] } := by
    rw [process_push_run_final]
    simp only [hloop₁]
    rw [if_neg hcond₁]
  have hconc₁ : (process_push db now₁ uid₁ did₁ [op₁] key₁).1.id_map = [m] := by
    rw [hpush₁, process_push_run_idmap, hloop₁]
    simp [applyOpResult, emptyAcc]
  have hR₁tab : (process_push db now₁ uid₁ did₁ [op₁] key₁).2.table op₁.entity_type =
      db.table op₁.entity_type ++ [newEnt] := by
    rw [hpush₁, hfinal₁]
    exact hdbTable
  have hconc₂ : ((process_push db now₁ uid₁ did₁ [op₁] key₁).2.table op₁.entity_type).length =
      (db.table op₁.entity_type).length + 1 := by
    rw [hR₁tab]
    simp
  have hR₁sync : (process_push db now₁ uid₁ did₁ [op₁] key₁).2.syncLogs =
      db'.syncLogs ++
        [⟨key₁, did₁, uid₁, "batch_" ++ key₁, "batch", "push",
          some (process_push_run db now₁ uid₁ did₁ [op₁] key₁).1, 200, now₁ + 86400⟩] := by
    rw [hpush₁, hfinal₁]
  have hfresh₂' : (process_push db now₁ uid₁ did₁ [op₁] key₁).2.syncLogs.find?
      (fun r => r.idempotency_key == key₂) = none := by
    rw [hR₁sync, find?_append_none _ _ _ (by rw [hdbS]; exact hfresh₂)]
    rw [List.find?_cons_of_neg _ (by
      show ¬ ((key₁ == key₂) = true)
      rw [beq_eq_false_iff_ne.mpr (Ne.symm hkne)]
      exact fun h => Bool.noConfusion h)]
    rfl
  have hfind₂ : ((process_push db now₁ uid₁ did₁ [op₁] key₁).2.table op₂.entity_type).find?
      (fun e => entityClientId e == some u) = some newEnt := by
    rw [hty, hR₁tab, find?_append_none _ _ _ hfind]
    rw [List.find?_cons_of_pos _ (by rw [hcidE]; simp)]
  have hcreate₂ : handle_create (process_push db now₁ uid₁ did₁ [op₁] key₁).2 now₂
      op₂.entity_type (some c) (payloadOf op₂) uid₂ =
      Except.ok (OpResult.success 0
        (some ⟨op₂.entity_type, some c, entityId newEnt, entityRevision newEnt⟩),
       (process_push db now₁ uid₁ did₁ [op₁] key₁).2) := by
    unfold handle_create
    rw [if_pos htr]
    simp only [Option.getD_some, hu, hfind₂]
  have hknownF₂ : ¬ (knownEntityTypes.contains op₂.entity_type = false) := by
    rw [hty, hknown]
    exact fun h => Bool.noConfusion h
  have hproc₂ : process_operation (process_push db now₁ uid₁ did₁ [op₁] key₁).2 now₂ uid₂ op₂ =
      Except.ok (OpResult.success 0
        (some ⟨op₂.entity_type, some c, entityId newEnt, entityRevision newEnt⟩),
       (process_push db now₁ uid₁ did₁ [op₁] key₁).2) := by
    unfold process_operation
    rw [if_neg hknownF₂, if_pos hact₂, hcid₂]
    exact hcreate₂
  have hloop₂ : pushLoop uid₂ now₂
      ⟨(process_push db now₁ uid₁ did₁ [op₁] key₁).2,
       (process_push db now₁ uid₁ did₁ [op₁] key₁).2⟩ emptyAcc [op₂] =
      (⟨(process_push db now₁ uid₁ did₁ [op₁] key₁).2,
        (process_push db now₁ uid₁ did₁ [op₁] key₁).2⟩,
       applyOpResult emptyAcc op₂.op_id (OpResult.success 0
         (some ⟨op₂.entity_type, some c, entityId newEnt, entityRevision newEnt⟩))) := by
    simp only [pushLoop, hproc₂]
  have hpush₂ : process_push (process_push db now₁ uid₁ did₁ [op₁] key₁).2 now₂ uid₂ did₂
      [op₂] key₂ =
      process_push_run (process_push db now₁ uid₁ did₁ [op₁] key₁).2 now₂ uid₂ did₂
        [op₂] key₂ :=
    process_push_of_find?_none hfresh₂'
  have hms : m.server_id = entityId newEnt := by
    rw [← hmap]
  have hmr : m.revision = entityRevision newEnt := by
    rw [← hmap]
  have hconc₃ : (process_push (process_push db now₁ uid₁ did₁ [op₁] key₁).2
      now₂ uid₂ did₂ [op₂] key₂).1.id_map =
      [⟨op₂.entity_type, some c, m.server_id, m.revision⟩] := by
    rw [hpush₂, process_push_run_idmap, hloop₂, hms, hmr]
    simp [applyOpResult, emptyAcc]
  have hcond₂ : ¬ ((process_push db now₁ uid₁ did₁ [op₁] key₁).2.syncLogs.any
      (fun r => r.idempotency_key == key₂) = true) := by
    intro hx
    rw [any_false_of_find?_none hfresh₂'] at hx
    exact Bool.noConfusion hx
  have hfinal₂ : (process_push_run (process_push db now₁ uid₁ did₁ [op₁] key₁).2
      now₂ uid₂ did₂ [op₂] key₂).2 =
      { (process_push db now₁ uid₁ did₁ [op₁] key₁).2 with
        syncLogs := (process_push db now₁ uid₁ did₁ [op₁] key₁).2.syncLogs ++
          [⟨key₂, did₂, uid₂, "batch_" ++ key₂, "batch", "push",
            some (process_push_run (process_push db now₁ uid₁ did₁ [op₁] key₁).2
              now₂ uid₂ did₂ [op₂] key₂).1, 200, now₂ + 86400⟩] } := by
    rw [process_push_run_final]
    simp only [hloop₂]
    rw [if_neg hcond₂]
  refine ⟨hconc₁, hconc₂, hconc₃, ?_, ?_⟩
  · rw [hpush₂, hfinal₂]
  · rw [hpush₂, hfinal₂]

/-- Witness for C4: two single-op creates with the fixture client UUID
against the empty database, under keys `ka` and `kb`: the second
reports server id 1 and leaves tables and ledger unchanged. -/
theorem C4_create_dedup_witness :
    (process_push dbEmptyFix 5 9 "dev" [opCreateFix] "ka").1.id_map =
      [⟨"property", some uuidB, 1, 1⟩] ∧
    (process_push (process_push dbEmptyFix 5 9 "dev" [opCreateFix] "ka").2
        6 9 "dev" [opCreateFix2] "kb").1.id_map =
      [⟨"property", some uuidB, (1 : Int), (1 : Int)⟩] ∧
    (process_push (process_push dbEmptyFix 5 9 "dev" [opCreateFix] "ka").2
        6 9 "dev" [opCreateFix2] "kb").2.tables =
      (process_push dbEmptyFix 5 9 "dev" [opCreateFix] "ka").2.tables := by
  have h := C4_create_dedup.2 dbEmptyFix 5 6 9 9 "dev" "dev" "ka" "kb" uuidB
    (String.mk (List.replicate 32 'b')) opCreateFix opCreateFix2 1
    ⟨"property", some uuidB, 1, 1⟩ dbCreatedFix
    rfl rfl rfl (by decide) rfl rfl rfl rfl rfl (by decide) rfl rfl
  exact ⟨h.1, h.2.2.1, h.2.2.2.1⟩

/-! ### C6: pull pagination -/

/-- C6: on a ledger whose rows are in strictly ascending id order (the
append-only auto-increment invariant), `process_pull` clamps the limit
to `[1, 500]`, returns exactly the first `limit` rows with
`id > since_id` — the lowest eligible ids, ascending — sets `has_more`
iff more than `limit` eligible rows exist, and sets `next_cursor` to
the last returned row's cursor, or keeps the (truthy) input cursor
unchanged on an empty page. -/
theorem C6_pull_pagination (db : DB) (uid : Nat) (since_cursor : Option String) (limit : Int)
    (hsorted : List.Pairwise (fun a b => a.id < b.id) db.changeLog) :
    let lim := (min (max 1 limit) 500).toNat
    let eligible := db.changeLog.filter
      (fun r => decide (id_from_cursor since_cursor < (r.id : Int)))
    let page := eligible.take lim
    let res := process_pull db uid since_cursor limit
    1 ≤ lim ∧ lim ≤ 500 ∧
    res.changes = page.map renderChange ∧
    res.changes.length ≤ lim ∧
    List.Pairwise (fun a b => a.id < b.id) page ∧
    (∀ x ∈ eligible, x ∉ page → ∀ y ∈ page, y.id < x.id) ∧
    (res.has_more = true ↔ lim < eligible.length) ∧
    (∀ lastRow, page.getLast? = some lastRow →
       res.next_cursor = cursor_from_id lastRow.id) ∧
    (page = [] → res.next_cursor =
      (match since_cursor with
       | some s => if s ≠ "" then s else cursor_from_id 0
       | none => cursor_from_id 0)) := by
  intro lim eligible page res
  have hmin : min lim (lim + 1) = lim := min_eq_left (Nat.le_succ lim)
  have helig : List.Pairwise (fun a b => a.id < b.id) eligible :=
    List.Pairwise.sublist (List.filter_sublist _) hsorted
  have hchanges : res.changes = page.map renderChange := by
    show (process_pull db uid since_cursor limit).changes = _
    unfold process_pull
    simp only [List.take_take, hmin]
  have hlast : ∀ lastRow, page.getLast? = some lastRow →
      res.next_cursor = cursor_from_id lastRow.id := by
    intro lastRow hl
    show (process_pull db uid since_cursor limit).next_cursor = _
    unfold process_pull
    simp only [List.take_take, hmin]
    rw [hl]
  have hempty : page = [] → res.next_cursor =
      (match since_cursor with
       | some s => if s ≠ "" then s else cursor_from_id 0
       | none => cursor_from_id 0) := by
    intro hpe
    show (process_pull db uid since_cursor limit).next_cursor = _
    unfold process_pull
    simp only [List.take_take, hmin]
    have hpe' : List.take lim (List.filter
        (fun r => decide (id_from_cursor since_cursor < (r.id : Int))) db.changeLog) =
        [] := hpe
    rw [hpe']
    rfl
  have hmore : res.has_more = true ↔ lim < eligible.length := by
    have hlen : (List.filter
        (fun r => decide (id_from_cursor since_cursor < (r.id : Int))) db.changeLog).length =
        eligible.length := rfl
    show (process_pull db uid since_cursor limit).has_more = true ↔ _
    unfold process_pull
    simp only [decide_eq_true_eq]
    rw [List.length_take, hlen]
    omega
  refine ⟨?_, ?_, hchanges, ?_, ?_, ?_, hmore, hlast, hempty⟩
  · show 1 ≤ (min (max 1 limit) 500).toNat
    omega
  · show (min (max 1 limit) 500).toNat ≤ 500
    omega
  · rw [hchanges, List.length_map]
    show (List.take lim eligible).length ≤ lim
    rw [List.length_take]
    exact Nat.min_le_left _ _
  · exact List.Pairwise.sublist (List.take_sublist _ _) helig
  · intro x hx hnx y hy
    have hsplit : List.Pairwise (fun a b => a.id < b.id) (page ++ eligible.drop lim) := by
      show List.Pairwise _ (eligible.take lim ++ eligible.drop lim)
      rw [List.take_append_drop]
      exact helig
    rcases List.pairwise_append.mp hsplit with ⟨-, -, hcross⟩
    have hxd : x ∈ eligible.drop lim := by
      rw [← List.take_append_drop lim eligible] at hx
      rcases List.mem_append.mp hx with h | h
      · exact absurd h hnx
      · exact h
    exact hcross y hy x hxd

/-- Witness for C6: pulling two of the three fixture rows reports more
pages, a page of length ≤ 2 and the last row's cursor. -/
theorem C6_pull_pagination_witness :
    (process_pull dbLogFix 9 none 2).has_more = true ∧
    (process_pull dbLogFix 9 none 2).changes.length ≤ 2 := by
  have h := C6_pull_pagination dbLogFix 9 none 2 (by decide)
  exact ⟨(h.2.2.2.2.2.2.1).mpr (by decide), h.2.2.2.1⟩

end Besikt
